import Mathlib

/-!
# Verification development for the `weixin` client library

The library is a thin layer over three WeChat HTTP APIs: every exported function
either builds a URL from `url.Values`, or performs one GET through a client and
decodes the JSON body.  The embedding below follows the Go sources

* `weixin/official_account/oauth.go`
* `wxwork/agent/oauth.go`
* `wxopen/open/auth.go`

Go strings are byte sequences, so they are embedded as lists of bytes.  The parts of
the Go standard library the sources call (`net/url`, `encoding/json`, `fmt`) are
embedded from the standard library's own sources, restricted to the modes the
repository uses.
-/

set_option maxRecDepth 100000

namespace Weixin

/-! ## Go strings -/

/-- A Go `byte`. -/
abbrev Byte := Fin 256

/-- A Go `string` (equally a `[]byte`): an arbitrary sequence of bytes. -/
abbrev GoString := List Byte

/-- UTF-8 encoding of a code point, used to write string constants of the source. -/
def utf8 (n : Nat) : GoString :=
  if n < 0x80 then [Fin.ofNat n]
  else if n < 0x800 then [Fin.ofNat (0xC0 + n / 64), Fin.ofNat (0x80 + n % 64)]
  else if n < 0x10000 then
    [Fin.ofNat (0xE0 + n / 4096), Fin.ofNat (0x80 + n / 64 % 64), Fin.ofNat (0x80 + n % 64)]
  else
    [Fin.ofNat (0xF0 + n / 262144), Fin.ofNat (0x80 + n / 4096 % 64),
     Fin.ofNat (0x80 + n / 64 % 64), Fin.ofNat (0x80 + n % 64)]

/-- The Go string written by a source literal. -/
def gs (s : String) : GoString := s.data.flatMap (fun c => utf8 c.toNat)

/-- Go's `<` on strings: bytewise lexicographic order. -/
def strLess : GoString → GoString → Bool
  | [], [] => false
  | [], _ :: _ => true
  | _ :: _, [] => false
  | a :: as, b :: bs => if a.val < b.val then true else if b.val < a.val then false else strLess as bs

/-- Insertion of a string into a sorted slice of strings. -/
def insertSorted (k : GoString) : List GoString → List GoString
  | [] => [k]
  | x :: xs => if strLess x k then x :: insertSorted k xs else k :: x :: xs

/-- Go's `sort.Strings`. -/
def sortStrings : List GoString → List GoString
  | [] => []
  | x :: xs => insertSorted x (sortStrings xs)

/-- Go's `strings.Cut(s, sep)` for a one-byte separator: the text before the first
`sep`, the text after it, and whether `sep` was found. -/
def cut (sep : Byte) : GoString → GoString × GoString × Bool
  | [] => ([], [], false)
  | c :: rest =>
    if c = sep then ([], rest, true)
    else
      let r := cut sep rest
      (c :: r.1, r.2.1, r.2.2)

/-! ## `net/url`: query escaping -/

/-- Go's `shouldEscape(c, encodeQueryComponent)`: only ASCII letters, digits and
`-`, `_`, `.`, `~` are left alone. -/
def shouldEscape (c : Byte) : Bool :=
  if (0x61 ≤ c.val ∧ c.val ≤ 0x7A) ∨ (0x41 ≤ c.val ∧ c.val ≤ 0x5A) ∨ (0x30 ≤ c.val ∧ c.val ≤ 0x39) then
    false
  else if c = 0x2D ∨ c = 0x5F ∨ c = 0x2E ∨ c = 0x7E then
    false
  else
    true

/-- Go's `upperhex[n]` for `n < 16`, the table `"0123456789ABCDEF"`. -/
def upperhex (n : Nat) : Byte :=
  if n < 10 then Fin.ofNat (0x30 + n) else Fin.ofNat (0x41 + (n - 10))

/-- One byte of Go's `escape(s, encodeQueryComponent)`. -/
def escapeByte (c : Byte) : GoString :=
  if c = 0x20 then [0x2B]
  else if shouldEscape c then [0x25, upperhex (c.val / 16), upperhex (c.val % 16)]
  else [c]

/-- Go's `url.QueryEscape`. -/
def QueryEscape (s : GoString) : GoString := s.flatMap escapeByte

/-- Go's `ishex`. -/
def ishex (c : Byte) : Bool :=
  (0x30 ≤ c.val ∧ c.val ≤ 0x39) ∨ (0x61 ≤ c.val ∧ c.val ≤ 0x66) ∨ (0x41 ≤ c.val ∧ c.val ≤ 0x46)

/-- Go's `unhex`. -/
def unhex (c : Byte) : Nat :=
  if 0x30 ≤ c.val ∧ c.val ≤ 0x39 then c.val - 0x30
  else if 0x61 ≤ c.val ∧ c.val ≤ 0x66 then c.val - 0x61 + 10
  else if 0x41 ≤ c.val ∧ c.val ≤ 0x46 then c.val - 0x41 + 10
  else 0

/-- The first pass of Go's `unescape(s, encodeQueryComponent)`: it returns the
offending text (at most three bytes) of the first malformed `%` escape, if any,
and otherwise whether the string holds a `%` or a `+`. -/
def unescapeCheck : GoString → Except GoString Bool
  | [] => .ok false
  | c :: rest =>
    if c = 0x25 then
      match rest with
      | a :: b :: rest2 =>
        if ishex a && ishex b then
          match unescapeCheck rest2 with
          | .ok _ => .ok true
          | .error e => .error e
        else .error [c, a, b]
      | _ => .error (c :: rest)
    else if c = 0x2B then
      match unescapeCheck rest with
      | .ok _ => .ok true
      | .error e => .error e
    else unescapeCheck rest

/-- The second pass of Go's `unescape(s, encodeQueryComponent)`. -/
def unescapeBuild : GoString → GoString
  | [] => []
  | c :: rest =>
    if c = 0x25 then
      match rest with
      | a :: b :: rest2 => Fin.ofNat (unhex a * 16 + unhex b) :: unescapeBuild rest2
      | _ => []
    else if c = 0x2B then (0x20 : Byte) :: unescapeBuild rest
    else c :: unescapeBuild rest

/-- Go's `url.QueryUnescape`: the decoded string and a nil error, or the empty
string and the `EscapeError` text. -/
def QueryUnescape (s : GoString) : GoString × Option GoString :=
  match unescapeCheck s with
  | .error e => ([], some e)
  | .ok false => (s, none)
  | .ok true => (unescapeBuild s, none)

/-! ## `net/url`: `Values` -/

/-- Go's `url.Values`, a `map[string][]string`, as an association list whose keys
are distinct.  Go maps are unordered; every observation below (`Get`, `Encode`)
is independent of the order of the entries. -/
abbrev Values := List (GoString × List GoString)

/-- The map lookup `v[key]` (`nil`, here `[]`, for an absent key). -/
def Values.Get : Values → GoString → List GoString
  | [], _ => []
  | (k, vs) :: rest, key => if k = key then vs else Values.Get rest key

/-- Whether `key` is a key of the map. -/
def Values.Has : Values → GoString → Bool
  | [], _ => false
  | (k, _) :: rest, key => if k = key then true else Values.Has rest key

/-- Go's `Values.Add`: `v[key] = append(v[key], value)`. -/
def Values.Add : Values → GoString → GoString → Values
  | [], key, value => [(key, [value])]
  | (k, vs) :: rest, key, value =>
    if k = key then (k, vs ++ [value]) :: rest else (k, vs) :: Values.Add rest key value

/-- The body of the inner loop of `Values.Encode`: one `key=value` pair is written
to the buffer, after a `&` when the buffer is not empty. -/
def encodePair (keyEscaped : GoString) (buf : GoString) (value : GoString) : GoString :=
  (if buf.length > 0 then buf ++ [0x26] else buf) ++ keyEscaped ++ [0x3D] ++ QueryEscape value

/-- Go's `Values.Encode`: the keys are sorted, and every value of every key is
written as `QueryEscape(key)=QueryEscape(value)`, the pairs joined by `&`. -/
def Values.Encode (v : Values) : GoString :=
  (sortStrings (v.map Prod.fst)).foldl
    (fun buf k => (Values.Get v k).foldl (encodePair (QueryEscape k)) buf) []

/-- The errors of Go's `url.ParseQuery`. -/
inductive QueryError where
  /-- The error "invalid semicolon separator in query". -/
  | semicolon
  /-- A `url.EscapeError` with the offending text. -/
  | escape (text : GoString)
  deriving DecidableEq, Repr

/-- The pieces that the loop of Go's `parseQuery` takes off the query one after the
other with `strings.Cut(query, "&")`, until the query is empty. -/
def splitAmp : GoString → List GoString
  | [] => []
  | c :: rest =>
    if c = 0x26 then [] :: splitAmp rest
    else
      match splitAmp rest with
      | [] => [[c]]
      | s :: ss => (c :: s) :: ss

/-- The body of the loop of Go's `parseQuery` on one piece: a piece with a `;` sets
the error, an empty piece is skipped, a piece whose key or value does not unescape
sets the error if none is set, and any other piece is added to the map. -/
def parseQueryStep (acc : Values × Option QueryError) (piece : GoString) :
    Values × Option QueryError :=
  if piece.any (fun c => c = 0x3B) then (acc.1, some QueryError.semicolon)
  else if piece = [] then acc
  else
    let c := cut 0x3D piece
    match QueryUnescape c.1 with
    | (_, some e) => (acc.1, if acc.2 = none then some (QueryError.escape e) else acc.2)
    | (key, none) =>
      match QueryUnescape c.2.1 with
      | (_, some e) => (acc.1, if acc.2 = none then some (QueryError.escape e) else acc.2)
      | (value, none) => (Values.Add acc.1 key value, acc.2)

/-- Go's `url.ParseQuery`: the map of the pairs found and the first error, if any. -/
def ParseQuery (query : GoString) : Values × Option QueryError :=
  (splitAmp query).foldl parseQueryStep ([], none)


/-! ## `encoding/json`: the scanner

The state machine of `scanner.go`, which `json.Unmarshal` runs over the whole input
(`checkValid`) before it decodes anything. -/

/-- A `*json.SyntaxError`: its message and the offset of the error. -/
structure SyntaxError where
  msg : GoString
  Offset : Nat
  deriving DecidableEq

/-- Go's `lowerhex[n]` for `n < 16`, the table `"0123456789abcdef"`. -/
def lowerhex (n : Nat) : Byte :=
  if n < 10 then Fin.ofNat (0x30 + n) else Fin.ofNat (0x61 + (n - 10))

/-- Go's `strconv.Quote(string(c))` without its two double quotes, for a byte `c`
other than `"` (the rune `c` itself when it is printable, an escape otherwise). -/
def quoteRune (c : Byte) : GoString :=
  if c = 0x5C then gs "\\\\"
  else if (0x20 ≤ c.val ∧ c.val ≤ 0x7E) ∨ (0xA1 ≤ c.val ∧ c ≠ 0xAD) then utf8 c.val
  else if c = 0x07 then gs "\\a"
  else if c = 0x08 then gs "\\b"
  else if c = 0x0C then gs "\\f"
  else if c = 0x0A then gs "\\n"
  else if c = 0x0D then gs "\\r"
  else if c = 0x09 then gs "\\t"
  else if c = 0x0B then gs "\\v"
  else if c.val < 0x20 ∨ c = 0x7F then gs "\\x" ++ [lowerhex (c.val / 16), lowerhex (c.val % 16)]
  else gs "\\u00" ++ [lowerhex (c.val / 16), lowerhex (c.val % 16)]

/-- Go's `quoteChar`: the byte as a quoted character literal. -/
def quoteChar (c : Byte) : GoString :=
  if c = 0x27 then gs "'\\''"
  else if c = 0x22 then gs "'\"'"
  else gs "'" ++ quoteRune c ++ gs "'"

/-- The values a scanner step returns (`scanContinue` ... `scanError`). -/
inductive ScanOp where
  | scanContinue | scanBeginLiteral | scanBeginObject | scanObjectKey | scanObjectValue
  | scanEndObject | scanBeginArray | scanArrayValue | scanEndArray | scanSkipSpace
  | scanEnd | scanError
  deriving DecidableEq

/-- The entries of the scanner's `parseState` stack. -/
inductive ParseState where
  | parseObjectKey | parseObjectValue | parseArrayValue
  deriving DecidableEq

/-- The scanner's `step` field: the state function to run on the next byte. -/
inductive StepFn where
  | stateBeginValueOrEmpty | stateBeginValue | stateBeginStringOrEmpty | stateBeginString
  | stateEndValue | stateEndTop | stateInString | stateInStringEsc
  | stateInStringEscU | stateInStringEscU1 | stateInStringEscU12 | stateInStringEscU123
  | stateNeg | state1 | state0 | stateDot | stateDot0 | stateE | stateESign | stateE0
  | stateT | stateTr | stateTru | stateF | stateFa | stateFal | stateFals
  | stateN | stateNu | stateNul | stateError
  deriving DecidableEq

/-- Go's `scanner`.  The `parseState` slice is kept with its last element first. -/
structure Scanner where
  step : StepFn
  endTop : Bool
  parseState : List ParseState
  err : Option SyntaxError
  bytes : Nat

/-- Go's `maxNestingDepth`. -/
def maxNestingDepth : Nat := 10000

/-- Go's `scanner.reset`. -/
def Scanner.reset : Scanner :=
  { step := .stateBeginValue, endTop := false, parseState := [], err := none, bytes := 0 }

/-- Go's `scanner.error`. -/
def Scanner.error (s : Scanner) (c : Byte) (context : String) : Scanner × ScanOp :=
  ({ s with
      step := .stateError
      err := some ⟨gs "invalid character " ++ quoteChar c ++ gs " " ++ gs context, s.bytes⟩ },
   .scanError)

/-- Go's `scanner.pushParseState`, after the new `step` has been set. -/
def Scanner.pushParseState (s : Scanner) (c : Byte) (newParseState : ParseState)
    (successState : ScanOp) : Scanner × ScanOp :=
  let s1 := { s with parseState := newParseState :: s.parseState }
  if s1.parseState.length ≤ maxNestingDepth then (s1, successState)
  else s1.error c "exceeded max depth"

/-- Go's `scanner.popParseState`. -/
def Scanner.popParseState (s : Scanner) : Scanner :=
  let rest := s.parseState.tail
  if rest.length = 0 then { s with parseState := rest, step := .stateEndTop, endTop := true }
  else { s with parseState := rest, step := .stateEndValue }

/-- Go's `isSpace`. -/
def isSpace (c : Byte) : Bool := c = 0x20 || c = 0x09 || c = 0x0D || c = 0x0A

/-- Whether the byte is an ASCII digit. -/
def isDigit (c : Byte) : Bool := 0x30 ≤ c.val && c.val ≤ 0x39

/-- Go's `stateEndTop`: a non-space byte after the top-level value records an error,
which the next step reports. -/
def stateEndTop (s : Scanner) (c : Byte) : Scanner × ScanOp :=
  if !isSpace c then ((s.error c "after top-level value").1, .scanEnd)
  else (s, .scanEnd)

/-- Go's `stateEndValue`. -/
def stateEndValue (s : Scanner) (c : Byte) : Scanner × ScanOp :=
  match s.parseState with
  | [] => stateEndTop { s with step := .stateEndTop, endTop := true } c
  | ps :: rest =>
    if isSpace c then ({ s with step := .stateEndValue }, .scanSkipSpace)
    else
      match ps with
      | .parseObjectKey =>
        if c = 0x3A then
          ({ s with parseState := .parseObjectValue :: rest, step := .stateBeginValue },
           .scanObjectKey)
        else s.error c "after object key"
      | .parseObjectValue =>
        if c = 0x2C then
          ({ s with parseState := .parseObjectKey :: rest, step := .stateBeginString },
           .scanObjectValue)
        else if c = 0x7D then (s.popParseState, .scanEndObject)
        else s.error c "after object key:value pair"
      | .parseArrayValue =>
        if c = 0x2C then ({ s with step := .stateBeginValue }, .scanArrayValue)
        else if c = 0x5D then (s.popParseState, .scanEndArray)
        else s.error c "after array element"

/-- Go's `stateBeginValue`. -/
def stateBeginValue (s : Scanner) (c : Byte) : Scanner × ScanOp :=
  if isSpace c then (s, .scanSkipSpace)
  else if c = 0x7B then
    Scanner.pushParseState { s with step := .stateBeginStringOrEmpty } c .parseObjectKey
      .scanBeginObject
  else if c = 0x5B then
    Scanner.pushParseState { s with step := .stateBeginValueOrEmpty } c .parseArrayValue
      .scanBeginArray
  else if c = 0x22 then ({ s with step := .stateInString }, .scanBeginLiteral)
  else if c = 0x2D then ({ s with step := .stateNeg }, .scanBeginLiteral)
  else if c = 0x30 then ({ s with step := .state0 }, .scanBeginLiteral)
  else if c = 0x74 then ({ s with step := .stateT }, .scanBeginLiteral)
  else if c = 0x66 then ({ s with step := .stateF }, .scanBeginLiteral)
  else if c = 0x6E then ({ s with step := .stateN }, .scanBeginLiteral)
  else if 0x31 ≤ c.val ∧ c.val ≤ 0x39 then ({ s with step := .state1 }, .scanBeginLiteral)
  else s.error c "looking for beginning of value"

/-- Go's `stateBeginValueOrEmpty`. -/
def stateBeginValueOrEmpty (s : Scanner) (c : Byte) : Scanner × ScanOp :=
  if isSpace c then (s, .scanSkipSpace)
  else if c = 0x5D then stateEndValue s c
  else stateBeginValue s c

/-- Go's `stateBeginString`. -/
def stateBeginString (s : Scanner) (c : Byte) : Scanner × ScanOp :=
  if isSpace c then (s, .scanSkipSpace)
  else if c = 0x22 then ({ s with step := .stateInString }, .scanBeginLiteral)
  else s.error c "looking for beginning of object key string"

/-- Go's `stateBeginStringOrEmpty`. -/
def stateBeginStringOrEmpty (s : Scanner) (c : Byte) : Scanner × ScanOp :=
  if isSpace c then (s, .scanSkipSpace)
  else if c = 0x7D then
    stateEndValue { s with parseState := .parseObjectValue :: s.parseState.tail } c
  else stateBeginString s c


/-- A state that accepts exactly the byte `want` and moves to `next`. -/
def expectByte (s : Scanner) (c want : Byte) (next : StepFn) (context : String) :
    Scanner × ScanOp :=
  if c = want then ({ s with step := next }, .scanContinue) else s.error c context

/-- The states `stateInStringEscU` ... `stateInStringEscU123`: a hexadecimal digit. -/
def stateHex (s : Scanner) (c : Byte) (next : StepFn) : Scanner × ScanOp :=
  if ishex c then ({ s with step := next }, .scanContinue)
  else s.error c "in \\u hexadecimal character escape"

/-- Go's `stateInString`. -/
def stateInString (s : Scanner) (c : Byte) : Scanner × ScanOp :=
  if c = 0x22 then ({ s with step := .stateEndValue }, .scanContinue)
  else if c = 0x5C then ({ s with step := .stateInStringEsc }, .scanContinue)
  else if c.val < 0x20 then s.error c "in string literal"
  else (s, .scanContinue)

/-- Go's `stateInStringEsc`. -/
def stateInStringEsc (s : Scanner) (c : Byte) : Scanner × ScanOp :=
  if c = 0x62 ∨ c = 0x66 ∨ c = 0x6E ∨ c = 0x72 ∨ c = 0x74 ∨ c = 0x5C ∨ c = 0x2F ∨ c = 0x22 then
    ({ s with step := .stateInString }, .scanContinue)
  else if c = 0x75 then ({ s with step := .stateInStringEscU }, .scanContinue)
  else s.error c "in string escape code"

/-- Go's `state0`. -/
def state0 (s : Scanner) (c : Byte) : Scanner × ScanOp :=
  if c = 0x2E then ({ s with step := .stateDot }, .scanContinue)
  else if c = 0x65 ∨ c = 0x45 then ({ s with step := .stateE }, .scanContinue)
  else stateEndValue s c

/-- Go's `state1`. -/
def state1 (s : Scanner) (c : Byte) : Scanner × ScanOp :=
  if isDigit c then ({ s with step := .state1 }, .scanContinue) else state0 s c

/-- Go's `stateNeg`. -/
def stateNeg (s : Scanner) (c : Byte) : Scanner × ScanOp :=
  if c = 0x30 then ({ s with step := .state0 }, .scanContinue)
  else if 0x31 ≤ c.val ∧ c.val ≤ 0x39 then ({ s with step := .state1 }, .scanContinue)
  else s.error c "in numeric literal"

/-- Go's `stateDot`. -/
def stateDot (s : Scanner) (c : Byte) : Scanner × ScanOp :=
  if isDigit c then ({ s with step := .stateDot0 }, .scanContinue)
  else s.error c "after decimal point in numeric literal"

/-- Go's `stateDot0`. -/
def stateDot0 (s : Scanner) (c : Byte) : Scanner × ScanOp :=
  if isDigit c then (s, .scanContinue)
  else if c = 0x65 ∨ c = 0x45 then ({ s with step := .stateE }, .scanContinue)
  else stateEndValue s c

/-- Go's `stateESign`. -/
def stateESign (s : Scanner) (c : Byte) : Scanner × ScanOp :=
  if isDigit c then ({ s with step := .stateE0 }, .scanContinue)
  else s.error c "in exponent of numeric literal"

/-- Go's `stateE`. -/
def stateE (s : Scanner) (c : Byte) : Scanner × ScanOp :=
  if c = 0x2B ∨ c = 0x2D then ({ s with step := .stateESign }, .scanContinue)
  else stateESign s c

/-- Go's `stateE0`. -/
def stateE0 (s : Scanner) (c : Byte) : Scanner × ScanOp :=
  if isDigit c then (s, .scanContinue) else stateEndValue s c

/-- The call `s.step(s, c)`. -/
def Scanner.run (s : Scanner) (c : Byte) : Scanner × ScanOp :=
  match s.step with
  | .stateBeginValueOrEmpty => stateBeginValueOrEmpty s c
  | .stateBeginValue => stateBeginValue s c
  | .stateBeginStringOrEmpty => stateBeginStringOrEmpty s c
  | .stateBeginString => stateBeginString s c
  | .stateEndValue => stateEndValue s c
  | .stateEndTop => stateEndTop s c
  | .stateInString => stateInString s c
  | .stateInStringEsc => stateInStringEsc s c
  | .stateInStringEscU => stateHex s c .stateInStringEscU1
  | .stateInStringEscU1 => stateHex s c .stateInStringEscU12
  | .stateInStringEscU12 => stateHex s c .stateInStringEscU123
  | .stateInStringEscU123 => stateHex s c .stateInString
  | .stateNeg => stateNeg s c
  | .state1 => state1 s c
  | .state0 => state0 s c
  | .stateDot => stateDot s c
  | .stateDot0 => stateDot0 s c
  | .stateE => stateE s c
  | .stateESign => stateESign s c
  | .stateE0 => stateE0 s c
  | .stateT => expectByte s c 0x72 .stateTr "in literal true (expecting 'r')"
  | .stateTr => expectByte s c 0x75 .stateTru "in literal true (expecting 'u')"
  | .stateTru => expectByte s c 0x65 .stateEndValue "in literal true (expecting 'e')"
  | .stateF => expectByte s c 0x61 .stateFa "in literal false (expecting 'a')"
  | .stateFa => expectByte s c 0x6C .stateFal "in literal false (expecting 'l')"
  | .stateFal => expectByte s c 0x73 .stateFals "in literal false (expecting 's')"
  | .stateFals => expectByte s c 0x65 .stateEndValue "in literal false (expecting 'e')"
  | .stateN => expectByte s c 0x75 .stateNu "in literal null (expecting 'u')"
  | .stateNu => expectByte s c 0x6C .stateNul "in literal null (expecting 'l')"
  | .stateNul => expectByte s c 0x6C .stateEndValue "in literal null (expecting 'l')"
  | .stateError => (s, .scanError)

/-- Go's `scanner.eof`: the error, if any, that the end of the input raises. -/
def Scanner.eof (s : Scanner) : Option SyntaxError :=
  match s.err with
  | some e => some e
  | none =>
    if s.endTop then none
    else
      let s1 := (s.run 0x20).1
      if s1.endTop then none
      else
        match s1.err with
        | some e => some e
        | none => some ⟨gs "unexpected end of JSON input", s.bytes⟩

/-- The loop of Go's `checkValid`. -/
def checkValidLoop (s : Scanner) : GoString → Option SyntaxError
  | [] => s.eof
  | c :: rest =>
    let r := Scanner.run { s with bytes := s.bytes + 1 } c
    if r.2 = .scanError then
      match r.1.err with
      | some e => some e
      | none => some ⟨[], r.1.bytes⟩
    else checkValidLoop r.1 rest

/-- Go's `checkValid`: `none` when the data is valid JSON, the syntax error otherwise. -/
def checkValid (data : GoString) : Option SyntaxError := checkValidLoop Scanner.reset data


/-! ## `encoding/json`: values

`json.Unmarshal` decodes straight from the bytes into the Go value; here the valid
input is first read into a JSON value, which is then stored into the Go value by
the rules of `decode.go`. -/

/-- A JSON value.  A number keeps its literal text, as Go converts it only when it
knows the kind of the destination. -/
inductive Json where
  | null
  | bool (b : Bool)
  | number (lit : GoString)
  | string (s : GoString)
  | array (items : List Json)
  | object (members : List (GoString × Json))

/-- Go's `getu4` on four hexadecimal digits. -/
def getu4 (a b c d : Byte) : Nat :=
  unhex a * 4096 + unhex b * 256 + unhex c * 16 + unhex d

/-- Whether `lo ≤ b ≤ hi`. -/
def inRange (b : Byte) (lo hi : Nat) : Bool := lo ≤ b.val && b.val ≤ hi

/-- The length of the well-formed UTF-8 sequence that starts with `c` and goes on with
`rest`, for `c ≥ 0x80`; `0` when there is none (Go's `utf8.DecodeRune` then returns
`RuneError` and width 1). -/
def runeLen (c : Byte) (rest : GoString) : Nat :=
  match rest with
  | [] => 0
  | b1 :: tl =>
    if inRange c 0xC2 0xDF then (if inRange b1 0x80 0xBF then 2 else 0)
    else if inRange c 0xE0 0xEF then
      let ok1 :=
        if c = 0xE0 then inRange b1 0xA0 0xBF
        else if c = 0xED then inRange b1 0x80 0x9F
        else inRange b1 0x80 0xBF
      match tl with
      | [] => 0
      | b2 :: _ => if ok1 && inRange b2 0x80 0xBF then 3 else 0
    else if inRange c 0xF0 0xF4 then
      let ok1 :=
        if c = 0xF0 then inRange b1 0x90 0xBF
        else if c = 0xF4 then inRange b1 0x80 0x8F
        else inRange b1 0x80 0xBF
      match tl with
      | b2 :: b3 :: _ => if ok1 && inRange b2 0x80 0xBF && inRange b3 0x80 0xBF then 4 else 0
      | _ => 0
    else 0

/-- The byte that a one-letter escape of a JSON string stands for. -/
def escapedByte (e : Byte) : Byte :=
  if e = 0x62 then 0x08
  else if e = 0x66 then 0x0C
  else if e = 0x6E then 0x0A
  else if e = 0x72 then 0x0D
  else if e = 0x74 then 0x09
  else e

/-- Whether the code point is a UTF-16 surrogate. -/
def isSurrogate (r : Nat) : Bool := 0xD800 ≤ r && r < 0xE000

/-- Go's `utf16.DecodeRune`: the code point of a surrogate pair, `U+FFFD` for anything
else. -/
def decodeSurrogates (r1 r2 : Nat) : Nat :=
  if 0xD800 ≤ r1 ∧ r1 < 0xDC00 ∧ 0xDC00 ≤ r2 ∧ r2 < 0xE000 then
    (r1 - 0xD800) * 1024 + (r2 - 0xDC00) + 0x10000
  else 0xFFFD

/-- The loop of Go's `unquoteBytes` on the text between the quotes of a string that the
scanner accepted.  Escapes are replaced, and bytes that are not well-formed UTF-8
become `U+FFFD`.  `copy` counts the bytes still to copy of a well-formed UTF-8
sequence; `pending` is a surrogate written as `\u`, which waits for the next item:
with a following `\u` escape that completes the pair it gives one code point, and
otherwise it becomes `U+FFFD`. -/
def unquoteLoop : GoString → Nat → Option Nat → GoString
  | [], _, pending => if pending.isSome then utf8 0xFFFD else []
  | c :: rest, copy, pending =>
    if copy > 0 then c :: unquoteLoop rest (copy - 1) none
    else if c = 0x5C then
      match rest with
      | [] => []
      | e :: rest2 =>
        if e = 0x75 then
          match rest2 with
          | a :: b :: c2 :: d :: rest3 =>
            let rr := getu4 a b c2 d
            let dec := decodeSurrogates (pending.getD 0) rr
            if pending.isSome ∧ dec ≠ 0xFFFD then utf8 dec ++ unquoteLoop rest3 0 none
            else
              (if pending.isSome then utf8 0xFFFD else []) ++
                (if isSurrogate rr then unquoteLoop rest3 0 (some rr)
                 else utf8 rr ++ unquoteLoop rest3 0 none)
          | _ => []
        else
          (if pending.isSome then utf8 0xFFFD else []) ++
            escapedByte e :: unquoteLoop rest2 0 none
    else if c.val < 0x80 then
      (if pending.isSome then utf8 0xFFFD else []) ++ c :: unquoteLoop rest 0 none
    else
      let n := runeLen c rest
      (if pending.isSome then utf8 0xFFFD else []) ++
        (if n = 0 then utf8 0xFFFD ++ unquoteLoop rest 0 none
         else c :: unquoteLoop rest (n - 1) none)

/-- Go's `unquote`, on the text between the quotes. -/
def unquote (s : GoString) : GoString := unquoteLoop s 0 none

/-- The value of a literal (a string, a number, `true`, `false` or `null`), from its
text. -/
def literalValue (lit : GoString) : Json :=
  match lit with
  | [] => .null
  | c :: rest =>
    if c = 0x22 then .string (unquote rest.dropLast)
    else if c = 0x74 then .bool true
    else if c = 0x66 then .bool false
    else if c = 0x6E then .null
    else .number lit

/-- An array or object that is being read: the items so far, last first, and for an
object the key that waits for its value. -/
inductive Frame where
  | array (items : List Json)
  | object (members : List (GoString × Json)) (key : Option GoString)

/-- The reader's state: the open arrays and objects, innermost first, the text of
the literal being read, last byte first, and the finished top-level value. -/
structure Builder where
  stack : List Frame
  lit : Option GoString
  result : Option Json

/-- A finished value goes to the innermost open array or object, or is the
top-level value. -/
def Builder.deliver (b : Builder) (v : Json) : Builder :=
  match b.stack with
  | [] => { b with result := some v }
  | .array items :: st => { b with stack := .array (v :: items) :: st }
  | .object ms (some k) :: st => { b with stack := .object ((k, v) :: ms) none :: st }
  | .object ms none :: st =>
    match v with
    | .string k => { b with stack := .object ms (some k) :: st }
    | _ => b

/-- The literal being read, if any, is finished. -/
def Builder.flush (b : Builder) : Builder :=
  match b.lit with
  | none => b
  | some rev => Builder.deliver { b with lit := none } (literalValue rev.reverse)

/-- The reader's step on byte `c`, for which the scanner returned `op`. -/
def Builder.step (b : Builder) (c : Byte) (op : ScanOp) : Builder :=
  match op with
  | .scanBeginLiteral => { b with lit := some [c] }
  | .scanContinue => { b with lit := b.lit.map (fun l => c :: l) }
  | .scanError => b
  | .scanBeginObject => let b1 := b.flush; { b1 with stack := .object [] none :: b1.stack }
  | .scanBeginArray => let b1 := b.flush; { b1 with stack := .array [] :: b1.stack }
  | .scanEndObject =>
    let b1 := b.flush
    match b1.stack with
    | .object ms _ :: st => Builder.deliver { b1 with stack := st } (.object ms.reverse)
    | _ => b1
  | .scanEndArray =>
    let b1 := b.flush
    match b1.stack with
    | .array items :: st => Builder.deliver { b1 with stack := st } (.array items.reverse)
    | _ => b1
  | _ => b.flush

/-- The scanner and the reader, run over the input. -/
def readLoop (s : Scanner) (b : Builder) : GoString → Builder
  | [] => b.flush
  | c :: rest =>
    let r := Scanner.run s c
    readLoop r.1 (b.step c r.2) rest

/-- The JSON value of a valid input. -/
def readValue (data : GoString) : Json :=
  ((readLoop Scanner.reset ⟨[], none, none⟩ data).result).getD .null


/-! ## `encoding/json`: storing a value into a struct -/

/-- A `*json.UnmarshalTypeError`: the description of the JSON value, the Go type it
could not be stored in (`Type` in Go), and the struct and field being decoded (both empty when
the mismatch is at the top level).  The offset is not modelled; `Error()` does not
print it. -/
structure UnmarshalTypeError where
  Value : GoString
  GoType : GoString
  Struct : GoString
  Field : GoString
  deriving DecidableEq

/-- The Go `error` values that occur: the two errors of `json.Unmarshal`, the
`*errors.errorString`-like value that `fmt.Errorf` without `%w` makes, and any
other error value, such as one made by the HTTP client, known by its message. -/
inductive GoError where
  | syntaxError (e : SyntaxError)
  | unmarshalTypeError (e : UnmarshalTypeError)
  | errorf (s : GoString)
  | other (msg : GoString)
  deriving DecidableEq

/-- The method `Error()`. -/
def GoError.Error : GoError → GoString
  | .syntaxError e => e.msg
  | .unmarshalTypeError e =>
    if e.Struct ≠ [] ∨ e.Field ≠ [] then
      gs "json: cannot unmarshal " ++ e.Value ++ gs " into Go struct field " ++ e.Struct ++
        gs "." ++ e.Field ++ gs " of type " ++ e.GoType
    else gs "json: cannot unmarshal " ++ e.Value ++ gs " into Go value of type " ++ e.GoType
  | .errorf s => s
  | .other msg => msg

/-- Go's `fmt.Errorf("%s", s)`: an error whose message is `s`. -/
def Errorf (s : GoString) : GoError := .errorf s

/-- The digits of a decimal numeral, most significant first, added to `acc`; `none`
for an empty text or one with a byte that is not a digit. -/
def parseDigits : GoString → Nat → Option Nat
  | [], _ => none
  | [c], acc => if isDigit c then some (acc * 10 + (c.val - 0x30)) else none
  | c :: d :: rest, acc =>
    if isDigit c then parseDigits (d :: rest) (acc * 10 + (c.val - 0x30)) else none

/-- Go's `strconv.ParseInt(s, 10, 64)`: an optional sign and decimal digits, in the
range of `int64`. -/
def ParseInt (s : GoString) : Option Int :=
  match s with
  | [] => none
  | c :: rest =>
    if c = 0x2D then
      match parseDigits rest 0 with
      | some n => if n ≤ 2 ^ 63 then some (-(n : Int)) else none
      | none => none
    else
      match parseDigits (if c = 0x2B then rest else s) 0 with
      | some n => if n < 2 ^ 63 then some (n : Int) else none
      | none => none

/-- The loop of `foldName`; `skip` counts the bytes still to skip of a rune that has
been replaced. -/
def foldNameLoop : GoString → Nat → GoString
  | [], _ => []
  | c :: rest, skip =>
    if skip > 0 then foldNameLoop rest (skip - 1)
    else if 0x61 ≤ c.val ∧ c.val ≤ 0x7A then Fin.ofNat (c.val - 0x20) :: foldNameLoop rest 0
    else if c = 0xC5 ∧ rest.take 1 = [0xBF] then (0x53 : Byte) :: foldNameLoop rest 1
    else if c = 0xE2 ∧ rest.take 2 = [0x84, 0xAA] then (0x4B : Byte) :: foldNameLoop rest 2
    else c :: foldNameLoop rest 0

/-- Go's `foldName`, as far as it matters for names in ASCII: ASCII letters are put
in upper case, and the two runes outside ASCII that fold to an ASCII letter,
`U+017F` (to `S`) and `U+212A` (to `K`), are replaced by it. -/
def foldName (s : GoString) : GoString := foldNameLoop s 0

/-- The `Value` text of an `UnmarshalTypeError` for a JSON value that does not fit. -/
def Json.describe : Json → GoString
  | .null => gs "null"
  | .bool _ => gs "bool"
  | .number _ => gs "number"
  | .string _ => gs "string"
  | .array _ => gs "array"
  | .object _ => gs "object"

/-- A field of a struct with a `json` tag: the tag's name, and how a JSON value is
stored in the field, which gives the struct after the store and the `Value` and
`Type` of the first mismatch, if any. -/
structure Field (α : Type) where
  name : GoString
  store : Json → α → α × Option (GoString × GoString)

/-- A field of kind `string`: a JSON string is stored, `null` leaves the field as it
is, anything else is a mismatch. -/
def Field.ofString {α : Type} (name : String) (set : GoString → α → α) : Field α :=
  { name := gs name
    store := fun v a =>
      match v with
      | .string s => (set s a, none)
      | .null => (a, none)
      | _ => (a, some (v.describe, gs "string")) }

/-- A field of kind `int` or `int64` (both 64 bits wide here, as on 64-bit
platforms): a JSON number that `ParseInt` accepts is stored, `null` leaves the
field as it is, anything else is a mismatch. -/
def Field.ofInt {α : Type} (name : String) (goType : String) (set : Int → α → α) : Field α :=
  { name := gs name
    store := fun v a =>
      match v with
      | .number lit =>
        match ParseInt lit with
        | some n => (set n a, none)
        | none => (a, some (gs "number " ++ lit, gs goType))
      | .null => (a, none)
      | _ => (a, some (v.describe, gs goType)) }

/-- The elements of a JSON array stored into a `[]string` whose elements were `old`:
a string is stored, `null` leaves the element as it is, anything else is a
mismatch that leaves the element as it is. -/
def storeStrings : List Json → List GoString → List GoString × Option (GoString × GoString)
  | [], _ => ([], none)
  | v :: vs, old =>
    let r := storeStrings vs old.tail
    match v with
    | .string s => (s :: r.1, r.2)
    | .null => (old.headD [] :: r.1, r.2)
    | _ => (old.headD [] :: r.1, some (v.describe, gs "string"))

/-- A field of kind `[]string` (a nil slice and an empty one are both `[]`): a JSON
array is stored element by element, `null` makes the slice nil, anything else is a
mismatch. -/
def Field.ofStrings {α : Type} (name : String) (get : α → List GoString)
    (set : List GoString → α → α) : Field α :=
  { name := gs name
    store := fun v a =>
      match v with
      | .array items => let r := storeStrings items (get a); (set r.1 a, r.2)
      | .null => (set [] a, none)
      | _ => (a, some (v.describe, gs "[]string")) }

/-- What `encoding/json` knows of a struct type: its name (empty for an anonymous
struct), the text of the type, and its fields. -/
structure StructInfo (α : Type) where
  name : GoString
  typeString : GoString
  fields : List (Field α)

/-- The field for an object key: the field of that name, or else the first field whose
name is the same up to case. -/
def findField {α : Type} (fields : List (Field α)) (key : GoString) : Option (Field α) :=
  match fields.find? (fun f => f.name = key) with
  | some f => some f
  | none => fields.find? (fun f => foldName f.name = foldName key)

/-- One member of a JSON object stored into a struct: a key with no field is skipped,
and only the first mismatch is kept (`saveError`). -/
def objectStep {α : Type} (info : StructInfo α) (acc : α × Option UnmarshalTypeError)
    (member : GoString × Json) : α × Option UnmarshalTypeError :=
  match findField info.fields member.1 with
  | none => acc
  | some f =>
    let r := f.store member.2 acc.1
    match r.2 with
    | none => (r.1, acc.2)
    | some m =>
      (r.1, match acc.2 with
            | some e => some e
            | none => some ⟨m.1, m.2, info.name, f.name⟩)

/-- A JSON value stored into a struct: the members of an object one after the other,
`null` leaves the struct as it is, anything else is a mismatch. -/
def decodeStruct {α : Type} (info : StructInfo α) (v : Json) (a : α) :
    α × Option UnmarshalTypeError :=
  match v with
  | .object members => members.foldl (objectStep info) (a, none)
  | .null => (a, none)
  | _ => (a, some ⟨v.describe, info.typeString, [], []⟩)

/-- Go's `json.Unmarshal(data, &v)` for a struct `v`: the struct after the call and
the error.  Nothing is decoded when the data is not valid JSON. -/
def Unmarshal {α : Type} (info : StructInfo α) (data : GoString) (v : α) : α × Option GoError :=
  match checkValid data with
  | some e => (v, some (.syntaxError e))
  | none =>
    let r := decodeStruct info (readValue data) v
    (r.1, r.2.map GoError.unmarshalTypeError)


/-! ## `fmt` and the HTTP client -/

/-- Go's `fmt.Sprintf("%d", n)`. -/
def formatInt (n : Int) : GoString :=
  (if n < 0 then [(0x2D : Byte)] else []) ++
    (Nat.toDigits 10 n.natAbs).map (fun c => Fin.ofNat c.toNat)

/-- Modelled from the spec: the HTTP client that every component holds (the `Client`
field, declared outside the given sources), "an externally supplied HTTP client
object providing `GET` (with query parameters)": the GET takes the path and the
parameters and returns the response body and an error.  `σ` is the state of
everything outside the library (the network, the token store); a call may change
it.  The `context.Context` argument is part of that state. -/
structure Client (σ : Type) where
  HTTPGetWithParams : GoString → Values → σ → (GoString × Option GoError) × σ

/-! ## `weixin/official_account/oauth.go` -/

namespace official_account

/-- Modelled from the spec: the `Config` of an official account, declared outside
the given sources; the fields that `oauth.go` reads. -/
structure Config where
  Appid : GoString
  Secret : GoString

/-- Modelled from the spec: the receiver type `OfficialAccount`, declared outside
the given sources; the fields that `oauth.go` reads. -/
structure OfficialAccount (σ : Type) where
  Config : Config
  Client : Client σ

/-- The package variable `OauthAuthorizeServerUrl`, with the value it is declared
with. -/
def OauthAuthorizeServerUrl : GoString := gs "https://open.weixin.qq.com"

def apiAuthorize : GoString := gs "/connect/oauth2/authorize"
def apiAccessToken : GoString := gs "/sns/oauth2/access_token"
def apiRefreshToken : GoString := gs "/sns/oauth2/refresh_token"
def apiUserInfo : GoString := gs "/sns/userinfo"
def apiAuth : GoString := gs "/sns/auth"
def apiGetJSApiTicket : GoString := gs "/cgi-bin/ticket/getticket"

def ScopeSnsapiBase : GoString := gs "snsapi_base"
def ScopeSnsapiUserinfo : GoString := gs "snsapi_userinfo"

/-- `OfficialAccount.GetAuthorizeUrl`. -/
def GetAuthorizeUrl {σ : Type} (officialAccount : OfficialAccount σ)
    (redirectUri scope state : GoString) : GoString :=
  let params : Values := []
  let params := Values.Add params (gs "appid") officialAccount.Config.Appid
  let params := Values.Add params (gs "redirect_uri") redirectUri
  let params := Values.Add params (gs "response_type") (gs "code")
  let params := Values.Add params (gs "scope") scope
  let params := Values.Add params (gs "state") state
  OauthAuthorizeServerUrl ++ apiAuthorize ++ gs "?" ++ Values.Encode params

/-- The struct `OauthAccessToken`; the defaults are Go's zero values. -/
structure OauthAccessToken where
  AccessToken : GoString := []
  ExpiresIn : Int := 0
  RefreshToken : GoString := []
  Openid : GoString := []
  Scope : GoString := []
  deriving DecidableEq

/-- The `json` tags of `OauthAccessToken`. -/
def oauthAccessTokenInfo : StructInfo OauthAccessToken :=
  { name := gs "OauthAccessToken"
    typeString := gs "official_account.OauthAccessToken"
    fields :=
      [ Field.ofString "access_token" (fun s a => { a with AccessToken := s }),
        Field.ofInt "expires_in" "int" (fun n a => { a with ExpiresIn := n }),
        Field.ofString "refresh_token" (fun s a => { a with RefreshToken := s }),
        Field.ofString "openid" (fun s a => { a with Openid := s }),
        Field.ofString "scope" (fun s a => { a with Scope := s }) ] }

/-- `OfficialAccount.GetSnsAccessToken`: the result, the error, and the state after
the call. -/
def GetSnsAccessToken {σ : Type} (officialAccount : OfficialAccount σ) (code : GoString)
    (w : σ) : (OauthAccessToken × Option GoError) × σ :=
  let params : Values := []
  let params := Values.Add params (gs "appid") officialAccount.Config.Appid
  let params := Values.Add params (gs "secret") officialAccount.Config.Secret
  let params := Values.Add params (gs "code") code
  let params := Values.Add params (gs "grant_type") (gs "authorization_code")
  let r := officialAccount.Client.HTTPGetWithParams apiAccessToken params w
  match r.1.2 with
  | some err => (({}, some err), r.2)
  | none =>
    let u := Unmarshal oauthAccessTokenInfo r.1.1 {}
    match u.2 with
    | some _ => ((u.1, some (Errorf r.1.1)), r.2)
    | none => ((u.1, none), r.2)

/-- `OfficialAccount.RefreshToken`. -/
def RefreshToken {σ : Type} (officialAccount : OfficialAccount σ) (refresh_token : GoString)
    (w : σ) : (OauthAccessToken × Option GoError) × σ :=
  let params : Values := []
  let params := Values.Add params (gs "appid") officialAccount.Config.Appid
  let params := Values.Add params (gs "refresh_token") refresh_token
  let params := Values.Add params (gs "grant_type") (gs "refresh_token")
  let r := officialAccount.Client.HTTPGetWithParams apiRefreshToken params w
  match r.1.2 with
  | some err => (({}, some err), r.2)
  | none =>
    let u := Unmarshal oauthAccessTokenInfo r.1.1 {}
    match u.2 with
    | some _ => ((u.1, some (Errorf r.1.1)), r.2)
    | none => ((u.1, none), r.2)

def LANG_zh_CN : GoString := gs "zh_CN"
def LANG_zh_TW : GoString := gs "zh_TW"
def LANG_en : GoString := gs "en"

/-- The struct `OauthUserInfo`; the defaults are Go's zero values. -/
structure OauthUserInfo where
  Openid : GoString := []
  Nickname : GoString := []
  Sex : Int := 0
  Province : GoString := []
  City : GoString := []
  Country : GoString := []
  Headimgurl : GoString := []
  Privilege : List GoString := []
  Unionid : GoString := []
  deriving DecidableEq

/-- The `json` tags of `OauthUserInfo`. -/
def oauthUserInfoInfo : StructInfo OauthUserInfo :=
  { name := gs "OauthUserInfo"
    typeString := gs "official_account.OauthUserInfo"
    fields :=
      [ Field.ofString "openid" (fun s a => { a with Openid := s }),
        Field.ofString "nickname" (fun s a => { a with Nickname := s }),
        Field.ofInt "sex" "int64" (fun n a => { a with Sex := n }),
        Field.ofString "province" (fun s a => { a with Province := s }),
        Field.ofString "city" (fun s a => { a with City := s }),
        Field.ofString "country" (fun s a => { a with Country := s }),
        Field.ofString "headimgurl" (fun s a => { a with Headimgurl := s }),
        Field.ofStrings "privilege" (fun a => a.Privilege) (fun l a => { a with Privilege := l }),
        Field.ofString "unionid" (fun s a => { a with Unionid := s }) ] }

/-- `OfficialAccount.GetUserInfo`. -/
def GetUserInfo {σ : Type} (officialAccount : OfficialAccount σ)
    (access_token openid lang : GoString) (w : σ) : (OauthUserInfo × Option GoError) × σ :=
  let params : Values := []
  let params := Values.Add params (gs "access_token") access_token
  let params := Values.Add params (gs "openid") openid
  let params := Values.Add params (gs "lang") lang
  let r := officialAccount.Client.HTTPGetWithParams apiUserInfo params w
  match r.1.2 with
  | some err => (({}, some err), r.2)
  | none =>
    let u := Unmarshal oauthUserInfoInfo r.1.1 {}
    match u.2 with
    | some _ => ((u.1, some (Errorf r.1.1)), r.2)
    | none => ((u.1, none), r.2)

/-- The anonymous struct `s` of `Auth`. -/
structure AuthResult where
  Errcode : Int := 0
  Errmsg : GoString := []
  deriving DecidableEq

/-- The `json` tags of the struct of `Auth`. -/
def authResultInfo : StructInfo AuthResult :=
  { name := []
    typeString := gs "struct \x7b Errcode int \"json:\\\"errcode\\\"\"; Errmsg string \"json:\\\"errmsg\\\"\" \x7d"
    fields :=
      [ Field.ofInt "errcode" "int" (fun n a => { a with Errcode := n }),
        Field.ofString "errmsg" (fun s a => { a with Errmsg := s }) ] }

/-- `OfficialAccount.Auth`. -/
def Auth {σ : Type} (officialAccount : OfficialAccount σ) (access_token openid : GoString)
    (w : σ) : (Bool × Option GoError) × σ :=
  let params : Values := []
  let params := Values.Add params (gs "access_token") access_token
  let params := Values.Add params (gs "openid") openid
  let r := officialAccount.Client.HTTPGetWithParams apiAuth params w
  match r.1.2 with
  | some err => ((false, some err), r.2)
  | none =>
    let u := Unmarshal authResultInfo r.1.1 {}
    match u.2 with
    | some _ => ((false, some (Errorf r.1.1)), r.2)
    | none => ((if u.1.Errcode = 0 then true else false, none), r.2)

/-- The anonymous struct `jsapiTicketResp` of `getApiTicket`. -/
structure TicketResp where
  Ticket : GoString := []
  ExpiresIn : Int := 0
  deriving DecidableEq

/-- The `json` tags of the struct of `getApiTicket`. -/
def ticketRespInfo : StructInfo TicketResp :=
  { name := []
    typeString := gs "struct \x7b Ticket string \"json:\\\"ticket\\\"\"; ExpiresIn int64 \"json:\\\"expires_in\\\"\" \x7d"
    fields :=
      [ Field.ofString "ticket" (fun s a => { a with Ticket := s }),
        Field.ofInt "expires_in" "int64" (fun n a => { a with ExpiresIn := n }) ] }

/-- `OfficialAccount.getApiTicket`: the ticket, `expiresIn`, the error, and the state
after the call. -/
def getApiTicket {σ : Type} (officialAccount : OfficialAccount σ) (tp : GoString) (w : σ) :
    (GoString × Int × Option GoError) × σ :=
  let jsapiTicketResp : TicketResp := {}
  let params : Values := []
  let params := Values.Add params (gs "type") tp
  let r := officialAccount.Client.HTTPGetWithParams apiGetJSApiTicket params w
  match r.1.2 with
  | some err => (([], 0, some err), r.2)
  | none =>
    let u := Unmarshal ticketRespInfo r.1.1 jsapiTicketResp
    match u.2 with
    | some err => (([], 0, some err), r.2)
    | none => ((u.1.Ticket, u.1.ExpiresIn, none), r.2)

/-- `OfficialAccount.GetJSApiTicket`. -/
def GetJSApiTicket {σ : Type} (officialAccount : OfficialAccount σ) (w : σ) :
    (GoString × Int × Option GoError) × σ :=
  getApiTicket officialAccount (gs "jsapi") w

/-- `OfficialAccount.GetWxCardApiTicket`. -/
def GetWxCardApiTicket {σ : Type} (officialAccount : OfficialAccount σ) (w : σ) :
    (GoString × Int × Option GoError) × σ :=
  getApiTicket officialAccount (gs "wx_card") w

end official_account


/-! ## `wxwork/agent/oauth.go` -/

namespace agent

/-- Modelled from the spec: the `Config` of the enterprise (`agent.wxwork.Config`),
declared outside the given sources; the field that `oauth.go` reads. -/
structure WxWorkConfig where
  Corpid : GoString

/-- Modelled from the spec: the enterprise an agent belongs to (`agent.wxwork`),
declared outside the given sources. -/
structure WxWork where
  Config : WxWorkConfig

/-- Modelled from the spec: the `Config` of an agent, declared outside the given
sources; the field that `oauth.go` reads, a string as it is passed to
`url.Values.Add`. -/
structure Config where
  AgentId : GoString

/-- Modelled from the spec: the receiver type `Agent`, declared outside the given
sources; the fields that `oauth.go` reads. -/
structure Agent (σ : Type) where
  wxwork : WxWork
  Config : Config
  Client : Client σ

def apiAuthorize : GoString := gs "https://open.weixin.qq.com/connect/oauth2/authorize"
def apiSSOAuthorize : GoString := gs "https://open.work.weixin.qq.com/wwopen/sso/qrConnect"
def apiUserInfo : GoString := gs "/cgi-bin/user/getuserinfo"

/-- The struct `UserInfo`; the defaults are Go's zero values. -/
structure UserInfo where
  Errcode : Int := 0
  Errmsg : GoString := []
  UserID : GoString := []
  DeviceID : GoString := []
  deriving DecidableEq

/-- The `json` tags of `UserInfo`. -/
def userInfoInfo : StructInfo UserInfo :=
  { name := gs "UserInfo"
    typeString := gs "agent.UserInfo"
    fields :=
      [ Field.ofInt "errcode" "int" (fun n a => { a with Errcode := n }),
        Field.ofString "errmsg" (fun s a => { a with Errmsg := s }),
        Field.ofString "UserId" (fun s a => { a with UserID := s }),
        Field.ofString "DeviceId" (fun s a => { a with DeviceID := s }) ] }

/-- `Agent.GetAuthorizeUrl`. -/
def GetAuthorizeUrl {σ : Type} (agent : Agent σ) (redirectUri state : GoString) : GoString :=
  let params : Values := []
  let params := Values.Add params (gs "appid") agent.wxwork.Config.Corpid
  let params := Values.Add params (gs "redirect_uri") redirectUri
  let params := Values.Add params (gs "response_type") (gs "code")
  let params := Values.Add params (gs "scope") (gs "snsapi_base")
  let params := Values.Add params (gs "state") state
  apiAuthorize ++ gs "?" ++ Values.Encode params ++ gs "#wechat_redirect"

/-- `Agent.GetSSOAuthorizeUrl`. -/
def GetSSOAuthorizeUrl {σ : Type} (agent : Agent σ) (redirectUri state : GoString) : GoString :=
  let params : Values := []
  let params := Values.Add params (gs "appid") agent.wxwork.Config.Corpid
  let params := Values.Add params (gs "agentid") agent.Config.AgentId
  let params := Values.Add params (gs "redirect_uri") redirectUri
  let params := Values.Add params (gs "state") state
  apiSSOAuthorize ++ gs "?" ++ Values.Encode params

/-- `Agent.GetUserInfo`: the result, the error, and the state after the call. -/
def GetUserInfo {σ : Type} (agent : Agent σ) (code : GoString) (w : σ) :
    (UserInfo × Option GoError) × σ :=
  let params : Values := []
  let params := Values.Add params (gs "code") code
  let r := agent.Client.HTTPGetWithParams apiUserInfo params w
  match r.1.2 with
  | some err => (({}, some err), r.2)
  | none =>
    let u := Unmarshal userInfoInfo r.1.1 {}
    match u.2 with
    | some _ => ((u.1, some (Errorf r.1.1)), r.2)
    | none => ((u.1, none), r.2)

end agent

/-! ## `wxopen/open/auth.go` -/

namespace wxopen

/-- Modelled from the spec: the `Config` of the open platform, declared outside the
given sources; the field that `auth.go` reads. -/
structure Config where
  ComponentAppid : GoString

/-- Modelled from the spec: the receiver type `Open`, declared outside the given
sources; the field that the URL builders read. -/
structure Open where
  Config : Config

def AuthorizationRedirectUri : GoString := gs "https://mp.weixin.qq.com"
def AuthTypeOf : Int := 1
def AuthTypeMp : Int := 2
def AuthTypeAll : Int := 3

/-- `Open.buildAuthParams`. -/
def buildAuthParams (o : Open) (pre_auth_code redirect_uri biz_appid : GoString)
    (auth_type : Int) : Values :=
  let params : Values := []
  let params := Values.Add params (gs "component_appid") o.Config.ComponentAppid
  let params := Values.Add params (gs "pre_auth_code") pre_auth_code
  let params := Values.Add params (gs "redirect_uri") redirect_uri
  let params := if biz_appid.length > 0 then Values.Add params (gs "biz_appid") biz_appid else params
  let params := if auth_type < 1 then Values.Add params (gs "auth_type") (formatInt auth_type) else params
  params

/-- `Open.GetAuthorizationRedirectUri`. -/
def GetAuthorizationRedirectUri (o : Open) (pre_auth_code redirect_uri biz_appid : GoString)
    (auth_type : Int) : GoString :=
  AuthorizationRedirectUri ++ gs "/cgi-bin/componentloginpage?" ++
    Values.Encode (buildAuthParams o pre_auth_code redirect_uri biz_appid auth_type)

/-- `Open.GetAuthorizationRedirectUri2`. -/
def GetAuthorizationRedirectUri2 (o : Open) (pre_auth_code redirect_uri biz_appid : GoString)
    (auth_type : Int) : GoString :=
  AuthorizationRedirectUri ++ gs "/safe/bindcomponent?" ++
    Values.Encode (buildAuthParams o pre_auth_code redirect_uri biz_appid auth_type) ++
    gs "#wechat_redirect"

end wxopen

/-! ## Reading a URL back -/

/-- The query of a URL as Go's `url.Parse` finds it: the fragment, from the first
`#`, is cut off, and the query is what follows the first `?`. -/
def rawQuery (url : GoString) : GoString := (cut 0x3F (cut 0x23 url).1).2.1

/-- The decoded query of a URL: `url.ParseQuery` on its query. -/
def decodedQuery (url : GoString) : Values × Option QueryError := ParseQuery (rawQuery url)

/-! ## Definitions used to state the theorems -/

/-- The `key=value` text that `Values.Encode` writes for one pair. -/
def queryPiece (kv : GoString × GoString) : GoString :=
  QueryEscape kv.1 ++ [0x3D] ++ QueryEscape kv.2

/-- The pairs of a `Values` in the order in which `Values.Encode` writes them: by
sorted key, and for one key in the order of its values. -/
def Values.pairs (v : Values) : List (GoString × GoString) :=
  (sortStrings (v.map Prod.fst)).flatMap (fun k => (Values.Get v k).map (fun x => (k, x)))

/-- The map that holds the given pairs, added one after the other. -/
def Values.ofPairs (ps : List (GoString × GoString)) : Values :=
  ps.foldl (fun m kv => Values.Add m kv.1 kv.2) []

/-- The bytes that `QueryEscape` can write. -/
def queryByte (b : Byte) : Bool := !shouldEscape b || b = 0x2B || b = 0x25

/-- A client for the examples: every GET returns `body` without error, and the state
counts the requests. -/
def cannedClient (body : GoString) : Client Nat :=
  ⟨fun _ _ w => ((body, none), w + 1)⟩

/-- A client for the examples: every GET fails with the error `e`, and the state
counts the requests. -/
def failingClient (e : GoError) : Client Nat :=
  ⟨fun _ _ w => (([], some e), w + 1)⟩

/-- A client for the examples: every GET returns `body` without error, and the state
is the list of the requests made, last first. -/
def loggingClient (body : GoString) : Client (List (GoString × Values)) :=
  ⟨fun path params w => ((body, none), (path, params) :: w)⟩

/-! ## `strings`, `strconv` and `encoding/json`: the parts the open platform needs -/

/-- Go's `strings.HasSuffix`. -/
def HasSuffix (s suffix : GoString) : Bool :=
  suffix.length ≤ s.length && s.drop (s.length - suffix.length) = suffix

/-- The exponent of a JSON number literal, the text after its `e`: an optional sign
and digits. -/
def exponentValue (s : GoString) : Option Int :=
  match s with
  | [] => none
  | c :: rest =>
    if c = 0x2D then (parseDigits rest 0).map (fun n => -(n : Int))
    else (parseDigits (if c = 0x2B then rest else s) 0).map (fun n => (n : Int))

/-- The number that a JSON number literal without sign denotes, as an exact
fraction: the digits before and after the point, scaled by the exponent. -/
def unsignedValue (s : GoString) : Option Rat :=
  let c := cut 0x65 (s.map (fun b => if b = 0x45 then (0x65 : Byte) else b))
  let m := cut 0x2E c.1
  match parseDigits (m.1 ++ m.2.1) 0, (if c.2.2 then exponentValue c.2.1 else some 0) with
  | some digits, some e =>
    let scale : Int := e - (m.2.1.length : Int)
    if scale ≥ 0 then some ((digits * 10 ^ scale.toNat : Nat) : Rat)
    else some (mkRat digits (10 ^ (-scale).toNat))
  | _, _ => none

/-- Go's `strconv.ParseFloat(s, 64)` on a JSON number literal.  The result is kept as
the exact value of the literal, where Go keeps the nearest `float64`; a literal that
rounds to an infinity, one of absolute value `2^1024 - 2^970` or more, is a range
error. -/
def ParseFloat (s : GoString) : Option Rat :=
  let v :=
    match s with
    | [] => none
    | c :: rest => if c = 0x2D then (unsignedValue rest).map (fun x => -x) else unsignedValue s
  match v with
  | none => none
  | some x => if x.num.natAbs ≥ (2 ^ 1024 - 2 ^ 970) * x.den then none else some x

/-- Go's `x != 0` for the `float64` nearest to the exact value `x`: the values of
absolute value `2^-1075` or less round to zero. -/
def float64NonZero (x : Rat) : Bool := x.num.natAbs * 2 ^ 1075 > x.den

/-- A field of kind `float64`: a JSON number that `ParseFloat` accepts is stored,
`null` leaves the field as it is, anything else is a mismatch. -/
def Field.ofFloat64 {α : Type} (name : String) (set : Rat → α → α) : Field α :=
  { name := gs name
    store := fun v a =>
      match v with
      | .number lit =>
        match ParseFloat lit with
        | some x => (set x a, none)
        | none => (a, some (gs "number " ++ lit, gs "float64"))
      | .null => (a, none)
      | _ => (a, some (v.describe, gs "float64")) }

/-- The loop of Go's `appendString(dst, src, escapeHTML = true)`, which `json.Marshal`
uses for a string: `"` and `\` get a backslash, the control characters their short
or `\u00XX` escape, `<`, `>` and `&` their `\u00XX` escape, a byte that is not
well-formed UTF-8 becomes `�`, and `U+2028`, `U+2029` are written as escapes.
`skip` counts the bytes of a rune already written as an escape, `copy` the bytes
still to copy of a well-formed UTF-8 sequence. -/
def appendStringLoop : GoString → Nat → Nat → GoString
  | [], _, _ => []
  | b :: rest, skip, copy =>
    if skip > 0 then appendStringLoop rest (skip - 1) 0
    else if copy > 0 then b :: appendStringLoop rest 0 (copy - 1)
    else if b.val < 0x80 then
      if 0x20 ≤ b.val ∧ b ≠ 0x22 ∧ b ≠ 0x26 ∧ b ≠ 0x3C ∧ b ≠ 0x3E ∧ b ≠ 0x5C then
        b :: appendStringLoop rest 0 0
      else if b = 0x5C ∨ b = 0x22 then (0x5C : Byte) :: b :: appendStringLoop rest 0 0
      else if b = 0x08 then gs "\\b" ++ appendStringLoop rest 0 0
      else if b = 0x0C then gs "\\f" ++ appendStringLoop rest 0 0
      else if b = 0x0A then gs "\\n" ++ appendStringLoop rest 0 0
      else if b = 0x0D then gs "\\r" ++ appendStringLoop rest 0 0
      else if b = 0x09 then gs "\\t" ++ appendStringLoop rest 0 0
      else gs "\\u00" ++ [lowerhex (b.val / 16), lowerhex (b.val % 16)] ++
        appendStringLoop rest 0 0
    else if runeLen b rest = 0 then gs "\\ufffd" ++ appendStringLoop rest 0 0
    else if b = 0xE2 ∧ rest.take 2 = [0x80, 0xA8] then gs "\\u2028" ++ appendStringLoop rest 2 0
    else if b = 0xE2 ∧ rest.take 2 = [0x80, 0xA9] then gs "\\u2029" ++ appendStringLoop rest 2 0
    else b :: appendStringLoop rest 0 (runeLen b rest - 1)

/-- Go's `appendString`: the JSON string literal for a Go string. -/
def appendString (src : GoString) : GoString :=
  (0x22 : Byte) :: (appendStringLoop src 0 0 ++ [0x22])

/-- The members of the object that `json.Marshal` writes for a struct, after the
first: each is preceded by a comma. -/
def marshalMembers : List (GoString × GoString) → GoString
  | [] => []
  | (k, v) :: rest => (0x2C : Byte) :: (appendString k ++ (0x3A : Byte) :: appendString v) ++
      marshalMembers rest

/-- Go's `json.Marshal` for a struct whose fields are strings with `json` tags, given
as the tags and the values in the order of the fields: a JSON object. -/
def Marshal (fields : List (GoString × GoString)) : GoString :=
  match fields with
  | [] => gs "\x7b\x7d"
  | (k, v) :: rest =>
    (0x7B : Byte) :: (appendString k ++ (0x3A : Byte) :: appendString v) ++
      marshalMembers rest ++ [0x7D]

/-! ## `utils` and `wxopen/open/auth.go`: the pre-authorization code -/

namespace utils

/-- Modelled from the spec: `utils.ApiPostWrapper`, which is not in the given sources.
It serializes the parameters to JSON, makes the call with that body, and decodes
the response into the result record, "a generic wrapper distinguishing success
(error code zero) from failure"; a transport failure "is returned immediately
as-is", and "on any decode failure, the raw body is surfaced verbatim as the error
detail".  A response with an error code other than zero is taken to fail the same
way.  `params` are the tagged string fields of the parameter struct, `errcode`
reads the error code of the result record. -/
def ApiPostWrapper {σ α : Type} (call : GoString → σ → (GoString × Option GoError) × σ)
    (params : List (GoString × GoString)) (info : StructInfo α) (errcode : α → Rat)
    (result : α) (w : σ) : (α × Option GoError) × σ :=
  let r := call (Marshal params) w
  match r.1.2 with
  | some err => ((result, some err), r.2)
  | none =>
    let u := Unmarshal info r.1.1 result
    match u.2 with
    | some _ => ((u.1, some (Errorf r.1.1)), r.2)
    | none =>
      if float64NonZero (errcode u.1) then ((u.1, some (Errorf r.1.1)), r.2)
      else ((u.1, none), r.2)

end utils

namespace wxopen

/-- Modelled from the spec: the HTTP client of the open platform (the `Client` field of
`Open`, declared outside the given sources), whose `POST` takes the path, the
body, the content type and, in this package, one more integer, and returns the
response body and an error.  `σ` is the state of everything outside the library. -/
structure Client (σ : Type) where
  HTTPPost : GoString → GoString → GoString → Int → σ → (GoString × Option GoError) × σ

/-- Modelled from the spec: the receiver type `Open` with its `Client` field, for the
calls that go to the network. -/
structure OpenApi (σ : Type) extends Open where
  Client : Client σ

def apiCreatePreauthCode : GoString := gs "/cgi-bin/component/api_create_preauthcode"

/-- `Open.CreatePreauthCodeRaw`. -/
def CreatePreauthCodeRaw {σ : Type} (o : OpenApi σ) (payload : GoString) (w : σ) :
    (GoString × Option GoError) × σ :=
  o.Client.HTTPPost apiCreatePreauthCode payload (gs "application/json;charset=utf-8") 0 w

/-- The anonymous struct `result` of `CreatePreauthCode`; the defaults are Go's zero
values. -/
structure PreauthCodeResult where
  AccessToken : GoString := []
  ExpiresIn : Int := 0
  Errcode : Rat := 0
  Errmsg : GoString := []
  deriving DecidableEq

/-- The `json` tags of the struct `result` of `CreatePreauthCode`. -/
def preauthCodeResultInfo : StructInfo PreauthCodeResult :=
  { name := []
    typeString := gs "struct \x7b AccessToken string \"json:\\\"component_access_token\\\"\"; ExpiresIn int \"json:\\\"expires_in\\\"\"; Errcode float64 \"json:\\\"errcode\\\"\"; Errmsg string \"json:\\\"errmsg\\\"\" \x7d"
    fields :=
      [ Field.ofString "component_access_token" (fun s a => { a with AccessToken := s }),
        Field.ofInt "expires_in" "int" (fun n a => { a with ExpiresIn := n }),
        Field.ofFloat64 "errcode" (fun x a => { a with Errcode := x }),
        Field.ofString "errmsg" (fun s a => { a with Errmsg := s }) ] }

/-- `Open.CreatePreauthCode`: the two results, the error, and the state after the
call. -/
def CreatePreauthCode {σ : Type} (o : OpenApi σ) (w : σ) :
    (GoString × Int × Option GoError) × σ :=
  let result : PreauthCodeResult := {}
  let params := [(gs "component_appid", o.Config.ComponentAppid)]
  let r := utils.ApiPostWrapper (CreatePreauthCodeRaw o) params preauthCodeResultInfo
    (fun x => x.Errcode) result w
  match r.1.2 with
  | some err => (([], 0, some err), r.2)
  | none => ((r.1.1.AccessToken, r.1.1.ExpiresIn, none), r.2)

/-- A client for the examples: every POST returns `body` without error, and the state
is the list of the requests made, last first. -/
def loggingClient (body : GoString) : Client (List (GoString × GoString × GoString × Int)) :=
  ⟨fun path payload contentType n w => ((body, none), (path, payload, contentType, n) :: w)⟩

end wxopen

/-! ## `net/url`: escaping and parsing are inverse -/

theorem escapeByte_queryByte : ∀ c : Byte, (escapeByte c).all queryByte = true := by decide!

theorem unhex_upperhex : ∀ c : Byte,
    (Fin.ofNat (unhex (upperhex (c.val / 16)) * 16 + unhex (upperhex (c.val % 16))) : Byte) = c := by
  decide!

theorem ishex_upperhex : ∀ c : Byte,
    (ishex (upperhex (c.val / 16)) && ishex (upperhex (c.val % 16))) = true := by decide!

theorem escapeByte_cases : ∀ c : Byte,
    (c = 0x20 ∧ escapeByte c = [0x2B]) ∨
    (c ≠ 0x20 ∧ escapeByte c = [0x25, upperhex (c.val / 16), upperhex (c.val % 16)]) ∨
    (c ≠ 0x25 ∧ c ≠ 0x2B ∧ escapeByte c = [c]) := by decide!

theorem QueryEscape_cons (c : Byte) (s : GoString) :
    QueryEscape (c :: s) = escapeByte c ++ QueryEscape s := by
  simp [QueryEscape]

theorem QueryEscape_queryByte (s : GoString) : ∀ b ∈ QueryEscape s, queryByte b = true := by
  intro b hb
  simp only [QueryEscape, List.mem_flatMap] at hb
  obtain ⟨c, _, hc⟩ := hb
  exact List.all_eq_true.mp (escapeByte_queryByte c) b hc

theorem unescapeCheck_cons (c : Byte) (rest : GoString) :
    unescapeCheck (c :: rest) =
      if c = 0x25 then
        match rest with
        | a :: b :: rest2 =>
          if ishex a && ishex b then
            match unescapeCheck rest2 with
            | .ok _ => .ok true
            | .error e => .error e
          else .error [c, a, b]
        | _ => .error (c :: rest)
      else if c = 0x2B then
        match unescapeCheck rest with
        | .ok _ => .ok true
        | .error e => .error e
      else unescapeCheck rest := by
  rw [unescapeCheck.eq_def]
  rfl

theorem unescapeBuild_cons (c : Byte) (rest : GoString) :
    unescapeBuild (c :: rest) =
      if c = 0x25 then
        match rest with
        | a :: b :: rest2 => Fin.ofNat (unhex a * 16 + unhex b) :: unescapeBuild rest2
        | _ => []
      else if c = 0x2B then (0x20 : Byte) :: unescapeBuild rest
      else c :: unescapeBuild rest := by
  rw [unescapeBuild.eq_def]
  rfl

theorem unescapeBuild_plus (t : GoString) :
    unescapeBuild ((0x2B : Byte) :: t) = (0x20 : Byte) :: unescapeBuild t := by
  simp [unescapeBuild_cons]

theorem unescapeBuild_other (c : Byte) (t : GoString) (h1 : c ≠ 0x25) (h2 : c ≠ 0x2B) :
    unescapeBuild (c :: t) = c :: unescapeBuild t := by
  simp [unescapeBuild_cons, h1, h2]

theorem unescapeCheck_plus (t : GoString) (b : Bool) (h : unescapeCheck t = .ok b) :
    unescapeCheck ((0x2B : Byte) :: t) = .ok true := by
  simp [unescapeCheck_cons, h]

theorem unescapeCheck_other (c : Byte) (t : GoString) (h1 : c ≠ 0x25) (h2 : c ≠ 0x2B) :
    unescapeCheck (c :: t) = unescapeCheck t := by
  simp [unescapeCheck_cons, h1, h2]

theorem unescapeBuild_escapeByte (c : Byte) (t : GoString) :
    unescapeBuild (escapeByte c ++ t) = c :: unescapeBuild t := by
  rcases escapeByte_cases c with ⟨h, e⟩ | ⟨_, e⟩ | ⟨h1, h2, e⟩
  · rw [e]
    subst h
    exact unescapeBuild_plus t
  · rw [e]
    simp [unescapeBuild_cons, unhex_upperhex]
  · rw [e]
    exact unescapeBuild_other c t h1 h2

theorem unescapeBuild_QueryEscape (s : GoString) : unescapeBuild (QueryEscape s) = s := by
  induction s with
  | nil => rfl
  | cons c s ih => rw [QueryEscape_cons, unescapeBuild_escapeByte, ih]

theorem unescapeCheck_escapeByte (c : Byte) (t : GoString) (h : ∃ b, unescapeCheck t = .ok b) :
    ∃ b, unescapeCheck (escapeByte c ++ t) = .ok b := by
  obtain ⟨b, hb⟩ := h
  rcases escapeByte_cases c with ⟨_, e⟩ | ⟨_, e⟩ | ⟨h1, h2, e⟩
  · rw [e]
    exact ⟨true, unescapeCheck_plus t b hb⟩
  · rw [e]
    have := ishex_upperhex c
    simp only [Bool.and_eq_true] at this
    exact ⟨true, by simp [unescapeCheck_cons, hb, this]⟩
  · rw [e]
    exact ⟨b, by rw [List.singleton_append, unescapeCheck_other c t h1 h2, hb]⟩

theorem unescapeCheck_QueryEscape (s : GoString) : ∃ b, unescapeCheck (QueryEscape s) = .ok b := by
  induction s with
  | nil => exact ⟨false, rfl⟩
  | cons c s ih => rw [QueryEscape_cons]; exact unescapeCheck_escapeByte c _ ih

theorem unescapeBuild_of_check_false (t : GoString) (h : unescapeCheck t = .ok false) :
    unescapeBuild t = t := by
  induction t with
  | nil => rfl
  | cons c t ih =>
    rw [unescapeCheck_cons] at h
    split_ifs at h with h1 h2
    · split at h
      · split_ifs at h
        split at h <;> simp at h
      · simp at h
    · split at h <;> simp at h
    · rw [unescapeBuild_other c t h1 h2, ih h]

/-- Unescaping undoes escaping. -/
theorem QueryUnescape_QueryEscape (s : GoString) : QueryUnescape (QueryEscape s) = (s, none) := by
  obtain ⟨b, hb⟩ := unescapeCheck_QueryEscape s
  unfold QueryUnescape
  rw [hb]
  cases b with
  | false =>
    simp only
    rw [← unescapeBuild_of_check_false _ hb, unescapeBuild_QueryEscape]
  | true => simp only [unescapeBuild_QueryEscape]


theorem queryByte_ne (b : Byte) (h : queryByte b = true) :
    b ≠ 0x26 ∧ b ≠ 0x3D ∧ b ≠ 0x3B ∧ b ≠ 0x23 ∧ b ≠ 0x3F := by
  revert b
  decide!

theorem cut_append (sep : Byte) (a rest : GoString) (h : ∀ b ∈ a, b ≠ sep) :
    cut sep (a ++ sep :: rest) = (a, rest, true) := by
  induction a with
  | nil => simp [cut]
  | cons c a ih =>
    have hc : c ≠ sep := h c (List.mem_cons_self _ _)
    have ha : ∀ b ∈ a, b ≠ sep := fun b hb => h b (List.mem_cons_of_mem _ hb)
    simp [cut, hc, ih ha]

theorem cut_absent (sep : Byte) (a : GoString) (h : ∀ b ∈ a, b ≠ sep) :
    cut sep a = (a, [], false) := by
  induction a with
  | nil => simp [cut]
  | cons c a ih =>
    have hc : c ≠ sep := h c (List.mem_cons_self _ _)
    have ha : ∀ b ∈ a, b ≠ sep := fun b hb => h b (List.mem_cons_of_mem _ hb)
    simp [cut, hc, ih ha]

theorem splitAmp_append (p t : GoString) (h : ∀ b ∈ p, b ≠ 0x26) :
    splitAmp (p ++ (0x26 : Byte) :: t) = p :: splitAmp t := by
  induction p with
  | nil => simp [splitAmp]
  | cons c p ih =>
    have hc : c ≠ 0x26 := h c (List.mem_cons_self _ _)
    have hp : ∀ b ∈ p, b ≠ 0x26 := fun b hb => h b (List.mem_cons_of_mem _ hb)
    simp [splitAmp, hc, ih hp]

theorem splitAmp_single (p : GoString) (h : ∀ b ∈ p, b ≠ 0x26) (hne : p ≠ []) :
    splitAmp p = [p] := by
  induction p with
  | nil => exact absurd rfl hne
  | cons c p ih =>
    have hc : c ≠ 0x26 := h c (List.mem_cons_self _ _)
    have hp : ∀ b ∈ p, b ≠ 0x26 := fun b hb => h b (List.mem_cons_of_mem _ hb)
    cases p with
    | nil => simp [splitAmp, hc]
    | cons d p =>
      have hd := ih hp (List.cons_ne_nil _ _)
      rw [splitAmp, if_neg hc, hd]

theorem splitAmp_joined (p : GoString) (rest : List GoString)
    (hp : ∀ b ∈ p, b ≠ 0x26) (hne : p ≠ [])
    (hrest : ∀ q ∈ rest, (∀ b ∈ q, b ≠ 0x26) ∧ q ≠ []) :
    splitAmp (p ++ rest.flatMap (fun q => (0x26 : Byte) :: q)) = p :: rest := by
  induction rest generalizing p with
  | nil => simpa using splitAmp_single p hp hne
  | cons q rest ih =>
    have hq := hrest q (List.mem_cons_self _ _)
    have hr : ∀ q ∈ rest, (∀ b ∈ q, b ≠ 0x26) ∧ q ≠ [] :=
      fun x hx => hrest x (List.mem_cons_of_mem _ hx)
    simp only [List.flatMap_cons, List.cons_append]
    rw [splitAmp_append p _ hp, ih q hq.1 hq.2 hr]

theorem queryPiece_amp (kv : GoString × GoString) : ∀ b ∈ queryPiece kv, b ≠ 0x26 := by
  intro b hb
  simp only [queryPiece, List.mem_append, List.mem_singleton] at hb
  rcases hb with (hb | hb) | hb
  · exact (queryByte_ne b (QueryEscape_queryByte _ b hb)).1
  · subst hb; decide
  · exact (queryByte_ne b (QueryEscape_queryByte _ b hb)).1

theorem queryPiece_semicolon (kv : GoString × GoString) : ∀ b ∈ queryPiece kv, b ≠ 0x3B := by
  intro b hb
  simp only [queryPiece, List.mem_append, List.mem_singleton] at hb
  rcases hb with (hb | hb) | hb
  · exact (queryByte_ne b (QueryEscape_queryByte _ b hb)).2.2.1
  · subst hb; decide
  · exact (queryByte_ne b (QueryEscape_queryByte _ b hb)).2.2.1

theorem queryPiece_ne_nil (kv : GoString × GoString) : queryPiece kv ≠ [] := by
  simp [queryPiece]

theorem parseQueryStep_queryPiece (acc : Values × Option QueryError) (kv : GoString × GoString) :
    parseQueryStep acc (queryPiece kv) = (Values.Add acc.1 kv.1 kv.2, acc.2) := by
  have h1 : (queryPiece kv).any (fun c => c = 0x3B) = false := by
    rw [List.any_eq_false]
    intro b hb
    simpa using queryPiece_semicolon kv b hb
  have h2 : cut 0x3D (queryPiece kv) = (QueryEscape kv.1, QueryEscape kv.2, true) := by
    unfold queryPiece
    rw [List.append_assoc, List.singleton_append]
    exact cut_append _ _ _ (fun b hb => (queryByte_ne b (QueryEscape_queryByte _ b hb)).2.1)
  unfold parseQueryStep
  simp only [h1, h2, queryPiece_ne_nil, QueryUnescape_QueryEscape]
  simp

theorem foldl_parseQueryStep (acc : Values × Option QueryError) (ps : List (GoString × GoString)) :
    (ps.map queryPiece).foldl parseQueryStep acc =
      (ps.foldl (fun m kv => Values.Add m kv.1 kv.2) acc.1, acc.2) := by
  induction ps generalizing acc with
  | nil => rfl
  | cons kv ps ih =>
    simp only [List.map_cons, List.foldl_cons, parseQueryStep_queryPiece, ih]

theorem encodePair_nil (kv : GoString × GoString) :
    encodePair (QueryEscape kv.1) [] kv.2 = queryPiece kv := by
  simp [encodePair, queryPiece]

theorem encodePair_cons (kv : GoString × GoString) (buf : GoString) (h : buf ≠ []) :
    encodePair (QueryEscape kv.1) buf kv.2 = buf ++ (0x26 : Byte) :: queryPiece kv := by
  have hl : buf.length > 0 := List.length_pos.mpr h
  simp [encodePair, queryPiece, hl]

theorem foldl_encodePair (ps : List (GoString × GoString)) (buf : GoString) (h : buf ≠ []) :
    ps.foldl (fun buf kv => encodePair (QueryEscape kv.1) buf kv.2) buf =
      buf ++ ps.flatMap (fun kv => (0x26 : Byte) :: queryPiece kv) := by
  induction ps generalizing buf with
  | nil => simp
  | cons kv ps ih =>
    simp only [List.foldl_cons, List.flatMap_cons]
    rw [encodePair_cons kv buf h, ih _ (by simp)]
    simp

theorem foldl_keys (v : Values) (ks : List GoString) (buf : GoString) :
    ks.foldl (fun buf k => (Values.Get v k).foldl (encodePair (QueryEscape k)) buf) buf =
      (ks.flatMap (fun k => (Values.Get v k).map (fun x => (k, x)))).foldl
        (fun buf kv => encodePair (QueryEscape kv.1) buf kv.2) buf := by
  induction ks generalizing buf with
  | nil => rfl
  | cons k ks ih =>
    simp only [List.foldl_cons, List.flatMap_cons, List.foldl_append, ih, List.foldl_map]

/-- What `Values.Encode` writes: the pieces of the pairs, joined by `&`. -/
theorem Encode_eq (v : Values) :
    Values.Encode v =
      match Values.pairs v with
      | [] => []
      | kv :: rest => queryPiece kv ++ (rest.map queryPiece).flatMap (fun q => (0x26 : Byte) :: q) := by
  unfold Values.Encode
  rw [foldl_keys]
  unfold Values.pairs
  cases (sortStrings (v.map Prod.fst)).flatMap (fun k => (Values.Get v k).map (fun x => (k, x))) with
  | nil => rfl
  | cons kv rest =>
    simp only [List.foldl_cons, encodePair_nil]
    rw [foldl_encodePair rest _ (queryPiece_ne_nil kv)]
    simp [List.flatMap_map]

/-- Parsing an encoded `Values` gives back its pairs, in the order in which they were
written, and no error. -/
theorem ParseQuery_Encode (v : Values) :
    ParseQuery (Values.Encode v) = (Values.ofPairs (Values.pairs v), none) := by
  rw [Encode_eq]
  unfold ParseQuery Values.ofPairs
  cases Values.pairs v with
  | nil => rfl
  | cons kv rest =>
    simp only
    rw [splitAmp_joined (queryPiece kv) (rest.map queryPiece) (queryPiece_amp kv)
      (queryPiece_ne_nil kv)
      (by
        intro q hq
        obtain ⟨x, _, rfl⟩ := List.mem_map.mp hq
        exact ⟨queryPiece_amp x, queryPiece_ne_nil x⟩)]
    rw [← List.map_cons, foldl_parseQueryStep]


/-! ## The authorization URLs -/

theorem ne_of_all (l : GoString) (sep : Byte) (h : l.all (fun b => b != sep) = true) :
    ∀ b ∈ l, b ≠ sep := by
  intro b hb
  simpa using List.all_eq_true.mp h b hb

/-- The text before and after the first `?` of `base ++ "?" ++ query`, for a base
without `?`. -/
theorem cut_question (base query : GoString) (h : ∀ b ∈ base, b ≠ 0x3F) :
    cut 0x3F (base ++ gs "?" ++ query) = (base, query, true) := by
  have e : base ++ gs "?" ++ query = base ++ (0x3F : Byte) :: query := by
    rw [List.append_assoc]; rfl
  rw [e]
  exact cut_append 0x3F base query h

/-- `Values.Encode` writes neither `#` nor `?`. -/
theorem Encode_safe (v : Values) : ∀ b ∈ Values.Encode v, b ≠ 0x23 ∧ b ≠ 0x3F := by
  intro b hb
  rw [Encode_eq] at hb
  have piece : ∀ kv : GoString × GoString, ∀ x ∈ queryPiece kv, x ≠ 0x23 ∧ x ≠ 0x3F := by
    intro kv x hx
    simp only [queryPiece, List.mem_append, List.mem_singleton] at hx
    rcases hx with (hx | hx) | hx
    · exact ⟨(queryByte_ne x (QueryEscape_queryByte _ x hx)).2.2.2.1,
        (queryByte_ne x (QueryEscape_queryByte _ x hx)).2.2.2.2⟩
    · subst hx; decide
    · exact ⟨(queryByte_ne x (QueryEscape_queryByte _ x hx)).2.2.2.1,
        (queryByte_ne x (QueryEscape_queryByte _ x hx)).2.2.2.2⟩
  cases hp : Values.pairs v with
  | nil => rw [hp] at hb; simp at hb
  | cons kv rest =>
    rw [hp] at hb
    simp only [List.mem_append, List.mem_flatMap, List.mem_map, List.mem_cons] at hb
    rcases hb with hb | ⟨q, ⟨x, _, rfl⟩, hb | hb⟩
    · exact piece kv b hb
    · subst hb; decide
    · exact piece x b hb

section official_account_urls
open official_account
variable {σ : Type}

/-- C1: the official-account `GetAuthorizeUrl` round trip.  For every configured appid
and every `redirectUri`, `scope` and `state` (any byte strings), the text before the
first `?` of the URL is `OauthAuthorizeServerUrl` followed by
`/connect/oauth2/authorize`, and the text after it, parsed by `url.ParseQuery`, gives
without error exactly the five keys `appid`, `redirect_uri`, `response_type`,
`scope`, `state`, each with the single value: the configured appid, `redirectUri`,
`code`, `scope`, `state`. -/
theorem C1_GetAuthorizeUrl_round_trip (officialAccount : OfficialAccount σ)
    (redirectUri scope state : GoString) :
    ∃ query : GoString,
      cut 0x3F (GetAuthorizeUrl officialAccount redirectUri scope state) =
        (OauthAuthorizeServerUrl ++ gs "/connect/oauth2/authorize", query, true) ∧
      ParseQuery query =
        ([(gs "appid", [officialAccount.Config.Appid]),
          (gs "redirect_uri", [redirectUri]),
          (gs "response_type", [gs "code"]),
          (gs "scope", [scope]),
          (gs "state", [state])], none) := by
  refine ⟨_, cut_question _ _ (ne_of_all _ _ (by decide!)), ?_⟩
  rw [ParseQuery_Encode]
  rfl

end official_account_urls

/-! ## Decoding the responses -/

section official_account_calls
open official_account
variable {σ : Type}

/-- A member whose key names no field leaves the struct as it is. -/
theorem objectStep_skip {α : Type} (info : StructInfo α) (z : α × Option UnmarshalTypeError)
    (m : GoString × Json) (h : findField info.fields m.1 = none) : objectStep info z m = z := by
  unfold objectStep
  rw [h]

theorem foldl_objectStep_skip {α : Type} (info : StructInfo α)
    (z : α × Option UnmarshalTypeError) (extras : List (GoString × Json))
    (h : ∀ m ∈ extras, findField info.fields m.1 = none) :
    extras.foldl (objectStep info) z = z := by
  induction extras with
  | nil => rfl
  | cons m ms ih =>
    rw [List.foldl_cons, objectStep_skip info z m (h m (List.mem_cons_self _ _))]
    exact ih (fun x hx => h x (List.mem_cons_of_mem _ hx))

/-- The five members of a token response are stored in the five fields, in any order
and whatever members without a field come with them. -/
theorem decode_token_members (T R O S lit : GoString) (E : Int) (hE : ParseInt lit = some E)
    (members extras : List (GoString × Json))
    (hextras : ∀ m ∈ extras, findField oauthAccessTokenInfo.fields m.1 = none)
    (hperm : members.Perm
      ([(gs "access_token", Json.string T), (gs "expires_in", Json.number lit),
        (gs "refresh_token", Json.string R), (gs "openid", Json.string O),
        (gs "scope", Json.string S)] ++ extras)) :
    decodeStruct oauthAccessTokenInfo (Json.object members) {} =
      ({ AccessToken := T, ExpiresIn := E, RefreshToken := R, Openid := O, Scope := S }, none) := by
  have s1 : ∀ z, objectStep oauthAccessTokenInfo z (gs "access_token", Json.string T) =
      ({ z.1 with AccessToken := T }, z.2) := fun _ => rfl
  have s2 : ∀ z, objectStep oauthAccessTokenInfo z (gs "expires_in", Json.number lit) =
      ({ z.1 with ExpiresIn := E }, z.2) := by
    intro z
    have e : objectStep oauthAccessTokenInfo z (gs "expires_in", Json.number lit) =
        match ParseInt lit with
        | some n => ({ z.1 with ExpiresIn := n }, z.2)
        | none => (z.1, match z.2 with
            | some e => some e
            | none => some ⟨gs "number " ++ lit, gs "int", gs "OauthAccessToken", gs "expires_in"⟩) := by
      unfold objectStep
      have f : findField oauthAccessTokenInfo.fields (gs "expires_in", Json.number lit).1 =
          some (Field.ofInt "expires_in" "int" (fun n a => { a with ExpiresIn := n })) := rfl
      rw [f]
      simp only [Field.ofInt]
      cases ParseInt lit <;> rfl
    rw [e, hE]
  have s3 : ∀ z, objectStep oauthAccessTokenInfo z (gs "refresh_token", Json.string R) =
      ({ z.1 with RefreshToken := R }, z.2) := fun _ => rfl
  have s4 : ∀ z, objectStep oauthAccessTokenInfo z (gs "openid", Json.string O) =
      ({ z.1 with Openid := O }, z.2) := fun _ => rfl
  have s5 : ∀ z, objectStep oauthAccessTokenInfo z (gs "scope", Json.string S) =
      ({ z.1 with Scope := S }, z.2) := fun _ => rfl
  have comm : ∀ x ∈ members, ∀ y ∈ members, ∀ z,
      objectStep oauthAccessTokenInfo (objectStep oauthAccessTokenInfo z x) y =
        objectStep oauthAccessTokenInfo (objectStep oauthAccessTokenInfo z y) x := by
    intro x hx y hy z
    have hskip : ∀ m ∈ extras, ∀ z, objectStep oauthAccessTokenInfo z m = z :=
      fun m hm z => objectStep_skip _ z m (hextras m hm)
    have hx1 := hperm.subset hx
    have hy1 := hperm.subset hy
    simp only [List.mem_append, List.mem_cons, List.mem_singleton, List.not_mem_nil,
      or_false] at hx1 hy1
    rcases hx1 with hx1 | hx1 <;> rcases hy1 with hy1 | hy1
    · rcases hx1 with rfl | rfl | rfl | rfl | rfl <;>
        rcases hy1 with rfl | rfl | rfl | rfl | rfl <;>
        simp only [s1, s2, s3, s4, s5]
    · simp only [hskip _ hy1]
    · simp only [hskip _ hx1]
    · simp only [hskip _ hx1]
  unfold decodeStruct
  simp only
  rw [hperm.foldl_eq' comm, List.foldl_append]
  simp only [List.foldl_cons, List.foldl_nil, s1, s2, s3, s4, s5]
  rw [foldl_objectStep_skip _ _ _ hextras]

/-- C2: `GetSnsAccessToken` success decoding.  Whenever the GET returns without error
a body that is valid JSON and reads as an object whose members are, in any order,
the strings `access_token` = `T`, `refresh_token` = `R`, `openid` = `O`, `scope` = `S`
and a number `expires_in` that `ParseInt` reads as `E` (together with any members
whose keys name no field of `OauthAccessToken`), `GetSnsAccessToken` returns the
`OauthAccessToken` with these five values and a nil error. -/
theorem C2_GetSnsAccessToken_success (officialAccount : OfficialAccount σ) (code : GoString)
    (w w1 : σ) (body T R O S lit : GoString) (E : Int)
    (members extras : List (GoString × Json))
    (hget : officialAccount.Client.HTTPGetWithParams (gs "/sns/oauth2/access_token")
      [(gs "appid", [officialAccount.Config.Appid]), (gs "secret", [officialAccount.Config.Secret]),
       (gs "code", [code]), (gs "grant_type", [gs "authorization_code"])] w = ((body, none), w1))
    (hvalid : checkValid body = none)
    (hread : readValue body = Json.object members)
    (hperm : members.Perm
      ([(gs "access_token", Json.string T), (gs "expires_in", Json.number lit),
        (gs "refresh_token", Json.string R), (gs "openid", Json.string O),
        (gs "scope", Json.string S)] ++ extras))
    (hextras : ∀ m ∈ extras, findField oauthAccessTokenInfo.fields m.1 = none)
    (hE : ParseInt lit = some E) :
    GetSnsAccessToken officialAccount code w =
      (({ AccessToken := T, ExpiresIn := E, RefreshToken := R, Openid := O, Scope := S }, none),
       w1) := by
  have hget1 : officialAccount.Client.HTTPGetWithParams apiAccessToken
      (Values.Add (Values.Add (Values.Add (Values.Add [] (gs "appid")
        officialAccount.Config.Appid) (gs "secret") officialAccount.Config.Secret)
        (gs "code") code) (gs "grant_type") (gs "authorization_code")) w = ((body, none), w1) :=
    hget
  have hu : Unmarshal oauthAccessTokenInfo body {} =
      ({ AccessToken := T, ExpiresIn := E, RefreshToken := R, Openid := O, Scope := S }, none) := by
    unfold Unmarshal
    rw [hvalid, hread]
    simp only [decode_token_members T R O S lit E hE members extras hextras hperm, Option.map]
  unfold GetSnsAccessToken
  simp only [hget1, hu]

/-- The witness of C2: the response of the specification's example. -/
theorem C2_GetSnsAccessToken_success_witness :
    GetSnsAccessToken
      ⟨⟨gs "wx1", gs "secret"⟩, cannedClient (gs "\x7b\"access_token\":\"T\",\"expires_in\":7200,\"refresh_token\":\"R\",\"openid\":\"O\",\"scope\":\"snsapi_base\"\x7d")⟩
      (gs "CODE") 0 =
    (({ AccessToken := gs "T", ExpiresIn := 7200, RefreshToken := gs "R", Openid := gs "O",
        Scope := gs "snsapi_base" }, none), 1) :=
  C2_GetSnsAccessToken_success _ (gs "CODE") 0 1 _ (gs "T") (gs "R") (gs "O") (gs "snsapi_base")
    (gs "7200") 7200 _ [] rfl (by decide!) rfl (List.Perm.refl _) (by simp) (by decide!)

/-- C3: `GetSnsAccessToken` decode failure.  Whenever the GET returns without error a
body that `json.Unmarshal` into `OauthAccessToken` rejects, be it invalid JSON or
JSON of the wrong shape, `GetSnsAccessToken` returns the non-nil error
`fmt.Errorf("%s", string(body))`, whose message is exactly the body. -/
theorem C3_GetSnsAccessToken_decode_failure (officialAccount : OfficialAccount σ)
    (code : GoString) (w w1 : σ) (body : GoString) (e : GoError)
    (hget : officialAccount.Client.HTTPGetWithParams (gs "/sns/oauth2/access_token")
      [(gs "appid", [officialAccount.Config.Appid]), (gs "secret", [officialAccount.Config.Secret]),
       (gs "code", [code]), (gs "grant_type", [gs "authorization_code"])] w = ((body, none), w1))
    (hdec : (Unmarshal oauthAccessTokenInfo body {}).2 = some e) :
    ∃ err : GoError, (GetSnsAccessToken officialAccount code w).1.2 = some err ∧
      err.Error = body := by
  have hget1 : officialAccount.Client.HTTPGetWithParams apiAccessToken
      (Values.Add (Values.Add (Values.Add (Values.Add [] (gs "appid")
        officialAccount.Config.Appid) (gs "secret") officialAccount.Config.Secret)
        (gs "code") code) (gs "grant_type") (gs "authorization_code")) w = ((body, none), w1) :=
    hget
  refine ⟨Errorf body, ?_, rfl⟩
  unfold GetSnsAccessToken
  simp only [hget1, hdec]

/-- The witness of C3: a body that is not JSON, and the JSON string `"invalid_grant"`,
which is not an object. -/
theorem C3_GetSnsAccessToken_decode_failure_witness :
    (∃ err : GoError,
      (GetSnsAccessToken ⟨⟨gs "wx1", gs "secret"⟩, cannedClient (gs "invalid_grant")⟩
        (gs "CODE") 0).1.2 = some err ∧ err.Error = gs "invalid_grant") ∧
    (∃ err : GoError,
      (GetSnsAccessToken ⟨⟨gs "wx1", gs "secret"⟩, cannedClient (gs "\"invalid_grant\"")⟩
        (gs "CODE") 0).1.2 = some err ∧ err.Error = gs "\"invalid_grant\"") :=
  ⟨C3_GetSnsAccessToken_decode_failure _ (gs "CODE") 0 1 (gs "invalid_grant")
      (.syntaxError ⟨gs "invalid character 'i' looking for beginning of value", 1⟩) rfl
      (by decide!),
   C3_GetSnsAccessToken_decode_failure _ (gs "CODE") 0 1 (gs "\"invalid_grant\"")
      (.unmarshalTypeError ⟨gs "string", gs "official_account.OauthAccessToken", [], []⟩) rfl
      (by decide!)⟩

/-- C4: `Auth` classification.  Whenever the GET returns without error a body that
`json.Unmarshal` decodes, `Auth` returns a nil error, and `isValid` is true if and
only if the decoded `errcode` is zero: a provider error code other than zero is a
negative result, not an error. -/
theorem C4_Auth_classification (officialAccount : OfficialAccount σ)
    (access_token openid : GoString) (w w1 : σ) (body : GoString) (s : AuthResult)
    (hget : officialAccount.Client.HTTPGetWithParams (gs "/sns/auth")
      [(gs "access_token", [access_token]), (gs "openid", [openid])] w = ((body, none), w1))
    (hdec : Unmarshal authResultInfo body {} = (s, none)) :
    (Auth officialAccount access_token openid w).1.2 = none ∧
    ((Auth officialAccount access_token openid w).1.1 = true ↔ s.Errcode = 0) := by
  have hget1 : officialAccount.Client.HTTPGetWithParams apiAuth
      (Values.Add (Values.Add [] (gs "access_token") access_token) (gs "openid") openid) w =
        ((body, none), w1) := hget
  unfold Auth
  simp only [hget1, hdec]
  by_cases h : s.Errcode = 0 <;> simp [h]

/-- The witness of C4: the two responses of the specification's example, a zero and a
non-zero `errcode`. -/
theorem C4_Auth_classification_witness :
    ((Auth ⟨⟨gs "wx1", gs "secret"⟩, cannedClient (gs "\x7b\"errcode\":0,\"errmsg\":\"ok\"\x7d")⟩
        (gs "TOKEN") (gs "OPENID") 0).1.2 = none ∧
     ((Auth ⟨⟨gs "wx1", gs "secret"⟩, cannedClient (gs "\x7b\"errcode\":0,\"errmsg\":\"ok\"\x7d")⟩
        (gs "TOKEN") (gs "OPENID") 0).1.1 = true ↔ (0 : Int) = 0)) ∧
    ((Auth ⟨⟨gs "wx1", gs "secret"⟩,
        cannedClient (gs "\x7b\"errcode\":40001,\"errmsg\":\"invalid credential\"\x7d")⟩
        (gs "TOKEN") (gs "OPENID") 0).1.2 = none ∧
     ((Auth ⟨⟨gs "wx1", gs "secret"⟩,
        cannedClient (gs "\x7b\"errcode\":40001,\"errmsg\":\"invalid credential\"\x7d")⟩
        (gs "TOKEN") (gs "OPENID") 0).1.1 = true ↔ (40001 : Int) = 0)) :=
  ⟨C4_Auth_classification _ (gs "TOKEN") (gs "OPENID") 0 1 _
      { Errcode := 0, Errmsg := gs "ok" } rfl (by decide!),
   C4_Auth_classification _ (gs "TOKEN") (gs "OPENID") 0 1 _
      { Errcode := 40001, Errmsg := gs "invalid credential" } rfl (by decide!)⟩

end official_account_calls

section official_account_tickets
open official_account
variable {σ : Type}

/-- C5: the two ticket requests differ only in `type`.  `GetJSApiTicket` and
`GetWxCardApiTicket` each leave the state that one GET to
`/cgi-bin/ticket/getticket` leaves, with a parameter set whose only key is `type`,
of value `jsapi` for the first and `wx_card` for the second; and when the two GETs
return the same response (body and error), the two calls return the same
`(ticket, expiresIn, err)`. -/
theorem C5_ticket_requests (a b : OfficialAccount σ) (w v : σ) :
    (GetJSApiTicket a w).2 =
      (a.Client.HTTPGetWithParams (gs "/cgi-bin/ticket/getticket")
        [(gs "type", [gs "jsapi"])] w).2 ∧
    (GetWxCardApiTicket b v).2 =
      (b.Client.HTTPGetWithParams (gs "/cgi-bin/ticket/getticket")
        [(gs "type", [gs "wx_card"])] v).2 ∧
    ((a.Client.HTTPGetWithParams (gs "/cgi-bin/ticket/getticket")
        [(gs "type", [gs "jsapi"])] w).1 =
      (b.Client.HTTPGetWithParams (gs "/cgi-bin/ticket/getticket")
        [(gs "type", [gs "wx_card"])] v).1 →
      (GetJSApiTicket a w).1 = (GetWxCardApiTicket b v).1) := by
  obtain ⟨F, hF⟩ : ∃ F : GoString × Option GoError → GoString × Int × Option GoError,
      ∀ (o : OfficialAccount σ) (tp : GoString) (x : σ),
        (getApiTicket o tp x).1 =
          F (o.Client.HTTPGetWithParams (gs "/cgi-bin/ticket/getticket")
            [(gs "type", [tp])] x).1 := by
    refine ⟨fun resp =>
      match resp.2 with
      | some err => ([], 0, some err)
      | none =>
        match (Unmarshal ticketRespInfo resp.1 {}).2 with
        | some err => ([], 0, some err)
        | none => ((Unmarshal ticketRespInfo resp.1 {}).1.Ticket,
            (Unmarshal ticketRespInfo resp.1 {}).1.ExpiresIn, none), ?_⟩
    intro o tp x
    have hp : Values.Add [] (gs "type") tp = [(gs "type", [tp])] := rfl
    unfold getApiTicket
    simp only [apiGetJSApiTicket, hp]
    generalize o.Client.HTTPGetWithParams (gs "/cgi-bin/ticket/getticket")
      [(gs "type", [tp])] x = r
    obtain ⟨⟨body, err⟩, x1⟩ := r
    cases err with
    | some e => rfl
    | none =>
      simp only
      cases h : (Unmarshal ticketRespInfo body {}).2 <;> rfl
  have hS : ∀ (o : OfficialAccount σ) (tp : GoString) (x : σ),
      (getApiTicket o tp x).2 =
        (o.Client.HTTPGetWithParams (gs "/cgi-bin/ticket/getticket")
          [(gs "type", [tp])] x).2 := by
    intro o tp x
    unfold getApiTicket
    dsimp only
    split
    · rfl
    · split <;> rfl
  refine ⟨hS a _ w, hS b _ v, ?_⟩
  intro h
  unfold GetJSApiTicket GetWxCardApiTicket
  rw [hF, hF, h]

/-- The witness of C5: with a client that records its requests, each call makes the
one request, and the two calls return the same result. -/
theorem C5_ticket_requests_witness :
    (GetJSApiTicket ⟨⟨gs "wx1", gs "secret"⟩,
        loggingClient (gs "\x7b\"errcode\":0,\"ticket\":\"TICKET\",\"expires_in\":7200\x7d")⟩ []).2 =
      [(gs "/cgi-bin/ticket/getticket", [(gs "type", [gs "jsapi"])])] ∧
    (GetWxCardApiTicket ⟨⟨gs "wx1", gs "secret"⟩,
        loggingClient (gs "\x7b\"errcode\":0,\"ticket\":\"TICKET\",\"expires_in\":7200\x7d")⟩ []).2 =
      [(gs "/cgi-bin/ticket/getticket", [(gs "type", [gs "wx_card"])])] ∧
    (GetJSApiTicket ⟨⟨gs "wx1", gs "secret"⟩,
        loggingClient (gs "\x7b\"errcode\":0,\"ticket\":\"TICKET\",\"expires_in\":7200\x7d")⟩ []).1 =
      (GetWxCardApiTicket ⟨⟨gs "wx1", gs "secret"⟩,
        loggingClient (gs "\x7b\"errcode\":0,\"ticket\":\"TICKET\",\"expires_in\":7200\x7d")⟩ []).1 :=
  ⟨(C5_ticket_requests
      ⟨⟨gs "wx1", gs "secret"⟩,
        loggingClient (gs "\x7b\"errcode\":0,\"ticket\":\"TICKET\",\"expires_in\":7200\x7d")⟩
      ⟨⟨gs "wx1", gs "secret"⟩,
        loggingClient (gs "\x7b\"errcode\":0,\"ticket\":\"TICKET\",\"expires_in\":7200\x7d")⟩
      [] []).1,
   (C5_ticket_requests
      ⟨⟨gs "wx1", gs "secret"⟩,
        loggingClient (gs "\x7b\"errcode\":0,\"ticket\":\"TICKET\",\"expires_in\":7200\x7d")⟩
      ⟨⟨gs "wx1", gs "secret"⟩,
        loggingClient (gs "\x7b\"errcode\":0,\"ticket\":\"TICKET\",\"expires_in\":7200\x7d")⟩
      [] []).2.1,
   (C5_ticket_requests
      ⟨⟨gs "wx1", gs "secret"⟩,
        loggingClient (gs "\x7b\"errcode\":0,\"ticket\":\"TICKET\",\"expires_in\":7200\x7d")⟩
      ⟨⟨gs "wx1", gs "secret"⟩,
        loggingClient (gs "\x7b\"errcode\":0,\"ticket\":\"TICKET\",\"expires_in\":7200\x7d")⟩
      [] []).2.2 rfl⟩

end official_account_tickets

section transport_failure
variable {σ : Type}

/-- C8: a transport failure is surfaced unchanged.  For `GetSnsAccessToken`,
`RefreshToken`, `GetUserInfo`, `Auth`, `getApiTicket` of the official account and
`GetUserInfo` of the enterprise agent: if the GET returns the error `e`, with
whatever body, the operation returns exactly `e` as its error, together with the
zero value of its result (the empty record, `false`, the empty ticket with
`expiresIn` 0), and nothing of the body. -/
theorem C8_transport_failure (e : GoError) (body : GoString) (w w1 : σ) :
    (∀ (o : official_account.OfficialAccount σ) (code : GoString),
      o.Client.HTTPGetWithParams (gs "/sns/oauth2/access_token")
        [(gs "appid", [o.Config.Appid]), (gs "secret", [o.Config.Secret]),
         (gs "code", [code]), (gs "grant_type", [gs "authorization_code"])] w =
          ((body, some e), w1) →
      official_account.GetSnsAccessToken o code w = (({}, some e), w1)) ∧
    (∀ (o : official_account.OfficialAccount σ) (refresh_token : GoString),
      o.Client.HTTPGetWithParams (gs "/sns/oauth2/refresh_token")
        [(gs "appid", [o.Config.Appid]), (gs "refresh_token", [refresh_token]),
         (gs "grant_type", [gs "refresh_token"])] w = ((body, some e), w1) →
      official_account.RefreshToken o refresh_token w = (({}, some e), w1)) ∧
    (∀ (o : official_account.OfficialAccount σ) (access_token openid lang : GoString),
      o.Client.HTTPGetWithParams (gs "/sns/userinfo")
        [(gs "access_token", [access_token]), (gs "openid", [openid]), (gs "lang", [lang])] w =
          ((body, some e), w1) →
      official_account.GetUserInfo o access_token openid lang w = (({}, some e), w1)) ∧
    (∀ (o : official_account.OfficialAccount σ) (access_token openid : GoString),
      o.Client.HTTPGetWithParams (gs "/sns/auth")
        [(gs "access_token", [access_token]), (gs "openid", [openid])] w =
          ((body, some e), w1) →
      official_account.Auth o access_token openid w = ((false, some e), w1)) ∧
    (∀ (o : official_account.OfficialAccount σ) (tp : GoString),
      o.Client.HTTPGetWithParams (gs "/cgi-bin/ticket/getticket") [(gs "type", [tp])] w =
          ((body, some e), w1) →
      official_account.getApiTicket o tp w = (([], 0, some e), w1)) ∧
    (∀ (a : agent.Agent σ) (code : GoString),
      a.Client.HTTPGetWithParams (gs "/cgi-bin/user/getuserinfo") [(gs "code", [code])] w =
          ((body, some e), w1) →
      agent.GetUserInfo a code w = (({}, some e), w1)) := by
  refine ⟨?_, ?_, ?_, ?_, ?_, ?_⟩
  · intro o code h
    have h1 : o.Client.HTTPGetWithParams official_account.apiAccessToken
        (Values.Add (Values.Add (Values.Add (Values.Add [] (gs "appid") o.Config.Appid)
          (gs "secret") o.Config.Secret) (gs "code") code) (gs "grant_type")
          (gs "authorization_code")) w = ((body, some e), w1) := h
    unfold official_account.GetSnsAccessToken
    simp only [h1]
  · intro o refresh_token h
    have h1 : o.Client.HTTPGetWithParams official_account.apiRefreshToken
        (Values.Add (Values.Add (Values.Add [] (gs "appid") o.Config.Appid)
          (gs "refresh_token") refresh_token) (gs "grant_type") (gs "refresh_token")) w =
            ((body, some e), w1) := h
    unfold official_account.RefreshToken
    simp only [h1]
  · intro o access_token openid lang h
    have h1 : o.Client.HTTPGetWithParams official_account.apiUserInfo
        (Values.Add (Values.Add (Values.Add [] (gs "access_token") access_token)
          (gs "openid") openid) (gs "lang") lang) w = ((body, some e), w1) := h
    unfold official_account.GetUserInfo
    simp only [h1]
  · intro o access_token openid h
    have h1 : o.Client.HTTPGetWithParams official_account.apiAuth
        (Values.Add (Values.Add [] (gs "access_token") access_token) (gs "openid") openid) w =
          ((body, some e), w1) := h
    unfold official_account.Auth
    simp only [h1]
  · intro o tp h
    have h1 : o.Client.HTTPGetWithParams official_account.apiGetJSApiTicket
        (Values.Add [] (gs "type") tp) w = ((body, some e), w1) := h
    unfold official_account.getApiTicket
    simp only [h1]
  · intro a code h
    have h1 : a.Client.HTTPGetWithParams agent.apiUserInfo
        (Values.Add [] (gs "code") code) w = ((body, some e), w1) := h
    unfold agent.GetUserInfo
    simp only [h1]

/-- The witness of C8: a client whose every GET fails with a time-out. -/
theorem C8_transport_failure_witness :
    official_account.GetSnsAccessToken
        ⟨⟨gs "wx1", gs "secret"⟩, failingClient (.other (gs "timeout"))⟩ (gs "CODE") 0 =
      (({}, some (.other (gs "timeout"))), 1) ∧
    official_account.RefreshToken
        ⟨⟨gs "wx1", gs "secret"⟩, failingClient (.other (gs "timeout"))⟩ (gs "REFRESH") 0 =
      (({}, some (.other (gs "timeout"))), 1) ∧
    official_account.GetUserInfo
        ⟨⟨gs "wx1", gs "secret"⟩, failingClient (.other (gs "timeout"))⟩ (gs "TOKEN")
        (gs "OPENID") (gs "zh_CN") 0 =
      (({}, some (.other (gs "timeout"))), 1) ∧
    official_account.Auth
        ⟨⟨gs "wx1", gs "secret"⟩, failingClient (.other (gs "timeout"))⟩ (gs "TOKEN")
        (gs "OPENID") 0 =
      ((false, some (.other (gs "timeout"))), 1) ∧
    official_account.getApiTicket
        ⟨⟨gs "wx1", gs "secret"⟩, failingClient (.other (gs "timeout"))⟩ (gs "jsapi") 0 =
      (([], 0, some (.other (gs "timeout"))), 1) ∧
    agent.GetUserInfo
        ⟨⟨⟨gs "corp1"⟩⟩, ⟨gs "1000002"⟩, failingClient (.other (gs "timeout"))⟩ (gs "CODE") 0 =
      (({}, some (.other (gs "timeout"))), 1) :=
  ⟨(C8_transport_failure (.other (gs "timeout")) [] 0 1).1 _ _ rfl,
   (C8_transport_failure (.other (gs "timeout")) [] 0 1).2.1 _ _ rfl,
   (C8_transport_failure (.other (gs "timeout")) [] 0 1).2.2.1 _ _ _ _ rfl,
   (C8_transport_failure (.other (gs "timeout")) [] 0 1).2.2.2.1 _ _ _ rfl,
   (C8_transport_failure (.other (gs "timeout")) [] 0 1).2.2.2.2.1 _ _ rfl,
   (C8_transport_failure (.other (gs "timeout")) [] 0 1).2.2.2.2.2 _ _ rfl⟩

end transport_failure

section ticket_decode_failure
open official_account

/-- C9 (the code departs from the claim): on the body `invalid_grant`, which is not
JSON, returned without error, `GetJSApiTicket` and `GetWxCardApiTicket` return the
`*json.SyntaxError` of `json.Unmarshal` itself, whose message is not the body, while
`GetSnsAccessToken`, `RefreshToken`, `GetUserInfo` and `Auth` return, on the same
body, an error whose message is the body. -/
theorem C9_ticket_decode_failure_keeps_json_error :
    (GetJSApiTicket ⟨⟨gs "wx1", gs "secret"⟩, cannedClient (gs "invalid_grant")⟩ 0).1 =
      ([], 0, some (.syntaxError
        ⟨gs "invalid character 'i' looking for beginning of value", 1⟩)) ∧
    (GetWxCardApiTicket ⟨⟨gs "wx1", gs "secret"⟩, cannedClient (gs "invalid_grant")⟩ 0).1 =
      ([], 0, some (.syntaxError
        ⟨gs "invalid character 'i' looking for beginning of value", 1⟩)) ∧
    GoError.Error (.syntaxError ⟨gs "invalid character 'i' looking for beginning of value", 1⟩) ≠
      gs "invalid_grant" ∧
    (GetSnsAccessToken ⟨⟨gs "wx1", gs "secret"⟩, cannedClient (gs "invalid_grant")⟩
      (gs "CODE") 0).1.2.map GoError.Error = some (gs "invalid_grant") ∧
    (RefreshToken ⟨⟨gs "wx1", gs "secret"⟩, cannedClient (gs "invalid_grant")⟩
      (gs "REFRESH") 0).1.2.map GoError.Error = some (gs "invalid_grant") ∧
    (GetUserInfo ⟨⟨gs "wx1", gs "secret"⟩, cannedClient (gs "invalid_grant")⟩
      (gs "TOKEN") (gs "OPENID") (gs "zh_CN") 0).1.2.map GoError.Error =
        some (gs "invalid_grant") ∧
    (Auth ⟨⟨gs "wx1", gs "secret"⟩, cannedClient (gs "invalid_grant")⟩
      (gs "TOKEN") (gs "OPENID") 0).1.2.map GoError.Error = some (gs "invalid_grant") := by
  decide!

end ticket_decode_failure

section url_shapes
variable {σ : Type}

/-- The query of a URL without fragment, `base ++ "?" ++ Encode v`. -/
theorem rawQuery_plain (base : GoString) (v : Values)
    (h : base.all (fun b => b != 0x3F && b != 0x23) = true) :
    rawQuery (base ++ (0x3F : Byte) :: Values.Encode v) = Values.Encode v := by
  have hb : ∀ b ∈ base, b ≠ 0x3F ∧ b ≠ 0x23 := by
    intro b hb
    simpa using List.all_eq_true.mp h b hb
  have h1 : cut 0x23 (base ++ (0x3F : Byte) :: Values.Encode v) =
      (base ++ (0x3F : Byte) :: Values.Encode v, [], false) := by
    apply cut_absent
    intro b hm
    simp only [List.mem_append, List.mem_cons] at hm
    rcases hm with hm | hm | hm
    · exact (hb b hm).2
    · subst hm; decide
    · exact (Encode_safe v b hm).1
  unfold rawQuery
  rw [h1]
  simp only
  rw [cut_append 0x3F base _ (fun b hm => (hb b hm).1)]

/-- The query of a URL with a fragment, `base ++ "?" ++ Encode v ++ "#" ++ fragment`. -/
theorem rawQuery_fragment (base fragment : GoString) (v : Values)
    (h : base.all (fun b => b != 0x3F && b != 0x23) = true) :
    rawQuery (base ++ (0x3F : Byte) :: (Values.Encode v ++ (0x23 : Byte) :: fragment)) =
      Values.Encode v := by
  have hb : ∀ b ∈ base, b ≠ 0x3F ∧ b ≠ 0x23 := by
    intro b hb
    simpa using List.all_eq_true.mp h b hb
  have h1 : cut 0x23 (base ++ (0x3F : Byte) :: (Values.Encode v ++ (0x23 : Byte) :: fragment)) =
      (base ++ (0x3F : Byte) :: Values.Encode v, fragment, true) := by
    have e : base ++ (0x3F : Byte) :: (Values.Encode v ++ (0x23 : Byte) :: fragment) =
        (base ++ (0x3F : Byte) :: Values.Encode v) ++ (0x23 : Byte) :: fragment := by simp
    rw [e]
    apply cut_append
    intro b hm
    simp only [List.mem_append, List.mem_cons] at hm
    rcases hm with hm | hm | hm
    · exact (hb b hm).2
    · subst hm; decide
    · exact (Encode_safe v b hm).1
  unfold rawQuery
  rw [h1]
  simp only
  rw [cut_append 0x3F base _ (fun b hm => (hb b hm).1)]

theorem gs_question : gs "?" = [(0x3F : Byte)] := by decide!

theorem gs_wechat_redirect :
    gs "#wechat_redirect" = (0x23 : Byte) :: gs "wechat_redirect" := by decide!

theorem gs_authorize_question :
    gs "https://open.weixin.qq.com/connect/oauth2/authorize?" =
      gs "https://open.weixin.qq.com/connect/oauth2/authorize" ++ [(0x3F : Byte)] := by decide!

/-- C10: the shape of the enterprise `GetAuthorizeUrl`.  For every `redirectUri` and
`state`, the URL is `https://open.weixin.qq.com/connect/oauth2/authorize?`, then a
query string, then the literal `#wechat_redirect`; no `#` occurs before that
literal, so the marker comes once, after the whole query; and the query string,
parsed by `url.ParseQuery`, gives without error exactly `appid` = the configured
`Corpid`, `redirect_uri` = `redirectUri`, `response_type` = `code`, `scope` =
`snsapi_base` and `state` = `state`, each once. -/
theorem C10_agent_GetAuthorizeUrl_shape (a : agent.Agent σ) (redirectUri state : GoString) :
    ∃ query : GoString,
      agent.GetAuthorizeUrl a redirectUri state =
        gs "https://open.weixin.qq.com/connect/oauth2/authorize?" ++ query ++
          gs "#wechat_redirect" ∧
      (∀ b ∈ gs "https://open.weixin.qq.com/connect/oauth2/authorize?" ++ query, b ≠ 0x23) ∧
      rawQuery (agent.GetAuthorizeUrl a redirectUri state) = query ∧
      ParseQuery query =
        ([(gs "appid", [a.wxwork.Config.Corpid]),
          (gs "redirect_uri", [redirectUri]),
          (gs "response_type", [gs "code"]),
          (gs "scope", [gs "snsapi_base"]),
          (gs "state", [state])], none) := by
  have e : agent.GetAuthorizeUrl a redirectUri state =
      gs "https://open.weixin.qq.com/connect/oauth2/authorize" ++ (0x3F : Byte) ::
        (Values.Encode (Values.Add (Values.Add (Values.Add (Values.Add (Values.Add []
          (gs "appid") a.wxwork.Config.Corpid) (gs "redirect_uri") redirectUri)
          (gs "response_type") (gs "code")) (gs "scope") (gs "snsapi_base"))
          (gs "state") state) ++ (0x23 : Byte) :: gs "wechat_redirect") := by
    unfold agent.GetAuthorizeUrl
    simp only [agent.apiAuthorize, gs_question, gs_wechat_redirect, List.append_assoc,
      List.singleton_append, List.cons_append, List.nil_append]
  refine ⟨Values.Encode (Values.Add (Values.Add (Values.Add (Values.Add (Values.Add []
    (gs "appid") a.wxwork.Config.Corpid) (gs "redirect_uri") redirectUri)
    (gs "response_type") (gs "code")) (gs "scope") (gs "snsapi_base")) (gs "state") state),
    ?_, ?_, ?_, ?_⟩
  · rw [e, gs_authorize_question, gs_wechat_redirect]
    simp only [List.append_assoc, List.singleton_append, List.cons_append, List.nil_append]
  · intro b hm
    simp only [List.mem_append] at hm
    rcases hm with hm | hm
    · exact ne_of_all _ _ (by decide!) b hm
    · exact (Encode_safe _ b hm).1
  · rw [e]
    exact rawQuery_fragment _ _ _ (by decide!)
  · rw [ParseQuery_Encode]
    rfl

end url_shapes

section decoded_queries
variable {σ : Type}

theorem decodedQuery_plain (base : GoString) (v : Values)
    (h : base.all (fun b => b != 0x3F && b != 0x23) = true) :
    decodedQuery (base ++ (0x3F : Byte) :: Values.Encode v) =
      (Values.ofPairs (Values.pairs v), none) := by
  unfold decodedQuery
  rw [rawQuery_plain base v h, ParseQuery_Encode]

theorem decodedQuery_fragment (base fragment : GoString) (v : Values)
    (h : base.all (fun b => b != 0x3F && b != 0x23) = true) :
    decodedQuery (base ++ (0x3F : Byte) :: (Values.Encode v ++ (0x23 : Byte) :: fragment)) =
      (Values.ofPairs (Values.pairs v), none) := by
  unfold decodedQuery
  rw [rawQuery_fragment base fragment v h, ParseQuery_Encode]

theorem gs_componentloginpage :
    gs "/cgi-bin/componentloginpage?" = gs "/cgi-bin/componentloginpage" ++ [(0x3F : Byte)] := by
  decide!

theorem gs_bindcomponent :
    gs "/safe/bindcomponent?" = gs "/safe/bindcomponent" ++ [(0x3F : Byte)] := by decide!

/-- The decoded query of the official-account authorization URL. -/
theorem decodedQuery_official (o : official_account.OfficialAccount σ)
    (redirectUri scope state : GoString) :
    decodedQuery (official_account.GetAuthorizeUrl o redirectUri scope state) =
      ([(gs "appid", [o.Config.Appid]), (gs "redirect_uri", [redirectUri]),
        (gs "response_type", [gs "code"]), (gs "scope", [scope]), (gs "state", [state])],
       none) := by
  have e : official_account.GetAuthorizeUrl o redirectUri scope state =
      (official_account.OauthAuthorizeServerUrl ++ official_account.apiAuthorize) ++
        (0x3F : Byte) :: Values.Encode (Values.Add (Values.Add (Values.Add (Values.Add
          (Values.Add [] (gs "appid") o.Config.Appid) (gs "redirect_uri") redirectUri)
          (gs "response_type") (gs "code")) (gs "scope") scope) (gs "state") state) := by
    unfold official_account.GetAuthorizeUrl
    simp only [gs_question, List.append_assoc, List.singleton_append, List.cons_append,
      List.nil_append]
  rw [e, decodedQuery_plain _ _ (by decide!)]
  rfl

/-- The decoded query of the enterprise authorization URL. -/
theorem decodedQuery_agent (a : agent.Agent σ) (redirectUri state : GoString) :
    decodedQuery (agent.GetAuthorizeUrl a redirectUri state) =
      ([(gs "appid", [a.wxwork.Config.Corpid]), (gs "redirect_uri", [redirectUri]),
        (gs "response_type", [gs "code"]), (gs "scope", [gs "snsapi_base"]),
        (gs "state", [state])], none) := by
  have e : agent.GetAuthorizeUrl a redirectUri state =
      agent.apiAuthorize ++ (0x3F : Byte) ::
        (Values.Encode (Values.Add (Values.Add (Values.Add (Values.Add (Values.Add []
          (gs "appid") a.wxwork.Config.Corpid) (gs "redirect_uri") redirectUri)
          (gs "response_type") (gs "code")) (gs "scope") (gs "snsapi_base"))
          (gs "state") state) ++ (0x23 : Byte) :: gs "wechat_redirect") := by
    unfold agent.GetAuthorizeUrl
    simp only [gs_question, gs_wechat_redirect, List.append_assoc,
      List.singleton_append, List.cons_append, List.nil_append]
  rw [e, decodedQuery_fragment _ _ _ (by decide!)]
  rfl

/-- The decoded query of the enterprise single-sign-on URL. -/
theorem decodedQuery_agent_sso (a : agent.Agent σ) (redirectUri state : GoString) :
    decodedQuery (agent.GetSSOAuthorizeUrl a redirectUri state) =
      ([(gs "agentid", [a.Config.AgentId]), (gs "appid", [a.wxwork.Config.Corpid]),
        (gs "redirect_uri", [redirectUri]), (gs "state", [state])], none) := by
  have e : agent.GetSSOAuthorizeUrl a redirectUri state =
      agent.apiSSOAuthorize ++ (0x3F : Byte) ::
        Values.Encode (Values.Add (Values.Add (Values.Add (Values.Add []
          (gs "appid") a.wxwork.Config.Corpid) (gs "agentid") a.Config.AgentId)
          (gs "redirect_uri") redirectUri) (gs "state") state) := by
    unfold agent.GetSSOAuthorizeUrl
    simp only [gs_question, List.append_assoc, List.singleton_append, List.cons_append,
      List.nil_append]
  rw [e, decodedQuery_plain _ _ (by decide!)]
  rfl

/-- The parameter set of `buildAuthParams`, written out. -/
theorem buildAuthParams_eq (o : wxopen.Open) (pre_auth_code redirect_uri biz_appid : GoString)
    (auth_type : Int) :
    wxopen.buildAuthParams o pre_auth_code redirect_uri biz_appid auth_type =
      [(gs "component_appid", [o.Config.ComponentAppid]), (gs "pre_auth_code", [pre_auth_code]),
        (gs "redirect_uri", [redirect_uri])] ++
      (if biz_appid = [] then [] else [(gs "biz_appid", [biz_appid])]) ++
      (if auth_type < 1 then [(gs "auth_type", [formatInt auth_type])] else []) := by
  cases biz_appid with
  | nil =>
    by_cases h : auth_type < 1
    · simp only [wxopen.buildAuthParams, h, List.length_nil, gt_iff_lt, lt_self_iff_false,
        if_false, if_true]
      rfl
    · simp only [wxopen.buildAuthParams, h, List.length_nil, gt_iff_lt, lt_self_iff_false,
        if_false]
      rfl
  | cons c t =>
    have hl : (c :: t).length > 0 := by simp
    by_cases h : auth_type < 1
    · simp only [wxopen.buildAuthParams, h, hl, if_true]
      rfl
    · simp only [wxopen.buildAuthParams, h, hl, if_true, if_false]
      rfl

/-- The decoded query of the first open-platform URL. -/
theorem decodedQuery_open (o : wxopen.Open) (pre_auth_code redirect_uri biz_appid : GoString)
    (auth_type : Int) :
    decodedQuery (wxopen.GetAuthorizationRedirectUri o pre_auth_code redirect_uri biz_appid
        auth_type) =
      (Values.ofPairs (Values.pairs
        (wxopen.buildAuthParams o pre_auth_code redirect_uri biz_appid auth_type)), none) := by
  have e : wxopen.GetAuthorizationRedirectUri o pre_auth_code redirect_uri biz_appid auth_type =
      (wxopen.AuthorizationRedirectUri ++ gs "/cgi-bin/componentloginpage") ++ (0x3F : Byte) ::
        Values.Encode (wxopen.buildAuthParams o pre_auth_code redirect_uri biz_appid
          auth_type) := by
    unfold wxopen.GetAuthorizationRedirectUri
    simp only [gs_componentloginpage, List.append_assoc, List.singleton_append,
      List.cons_append, List.nil_append]
  rw [e, decodedQuery_plain _ _ (by decide!)]

/-- The decoded query of the second open-platform URL. -/
theorem decodedQuery_open2 (o : wxopen.Open) (pre_auth_code redirect_uri biz_appid : GoString)
    (auth_type : Int) :
    decodedQuery (wxopen.GetAuthorizationRedirectUri2 o pre_auth_code redirect_uri biz_appid
        auth_type) =
      (Values.ofPairs (Values.pairs
        (wxopen.buildAuthParams o pre_auth_code redirect_uri biz_appid auth_type)), none) := by
  have e : wxopen.GetAuthorizationRedirectUri2 o pre_auth_code redirect_uri biz_appid auth_type =
      (wxopen.AuthorizationRedirectUri ++ gs "/safe/bindcomponent") ++ (0x3F : Byte) ::
        (Values.Encode (wxopen.buildAuthParams o pre_auth_code redirect_uri biz_appid
          auth_type) ++ (0x23 : Byte) :: gs "wechat_redirect") := by
    unfold wxopen.GetAuthorizationRedirectUri2
    simp only [gs_bindcomponent, gs_wechat_redirect, List.append_assoc, List.singleton_append,
      List.cons_append, List.nil_append]
  rw [e, decodedQuery_fragment _ _ _ (by decide!)]

/-- What `url.ParseQuery` reads back from the encoded parameters of `buildAuthParams`:
the keys in sorted order, each with its one value. -/
theorem ofPairs_buildAuthParams (o : wxopen.Open)
    (pre_auth_code redirect_uri biz_appid : GoString) (auth_type : Int) :
    Values.ofPairs (Values.pairs
        (wxopen.buildAuthParams o pre_auth_code redirect_uri biz_appid auth_type)) =
      (if auth_type < 1 then [(gs "auth_type", [formatInt auth_type])] else []) ++
      (if biz_appid = [] then [] else [(gs "biz_appid", [biz_appid])]) ++
      [(gs "component_appid", [o.Config.ComponentAppid]), (gs "pre_auth_code", [pre_auth_code]),
        (gs "redirect_uri", [redirect_uri])] := by
  rw [buildAuthParams_eq]
  by_cases hb : biz_appid = [] <;> by_cases h : auth_type < 1 <;>
    simp only [hb, h, if_true, if_false] <;> rfl

end decoded_queries

section url_parameters
variable {σ : Type}

/-- C6: the presence of `agentid`.  For every `redirectUri` and `state`, the decoded
query of the URL of the enterprise `GetSSOAuthorizeUrl` has the key `agentid`, with
the agent's configured `AgentId` as its value; and for every input, the decoded
query of the URLs of the official-account `GetAuthorizeUrl`, of the enterprise
`GetAuthorizeUrl`, and of the open-platform `GetAuthorizationRedirectUri` and
`GetAuthorizationRedirectUri2` has no key `agentid`. -/
theorem C6_agentid_presence (a : agent.Agent σ) (o : official_account.OfficialAccount σ)
    (p : wxopen.Open) (redirectUri scope state pre_auth_code biz_appid : GoString)
    (auth_type : Int) :
    Values.Has (decodedQuery (agent.GetSSOAuthorizeUrl a redirectUri state)).1 (gs "agentid") =
      true ∧
    Values.Get (decodedQuery (agent.GetSSOAuthorizeUrl a redirectUri state)).1 (gs "agentid") =
      [a.Config.AgentId] ∧
    Values.Has (decodedQuery (official_account.GetAuthorizeUrl o redirectUri scope state)).1
      (gs "agentid") = false ∧
    Values.Has (decodedQuery (agent.GetAuthorizeUrl a redirectUri state)).1 (gs "agentid") =
      false ∧
    Values.Has (decodedQuery (wxopen.GetAuthorizationRedirectUri p pre_auth_code redirectUri
      biz_appid auth_type)).1 (gs "agentid") = false ∧
    Values.Has (decodedQuery (wxopen.GetAuthorizationRedirectUri2 p pre_auth_code redirectUri
      biz_appid auth_type)).1 (gs "agentid") = false := by
  have hopen : Values.Has (Values.ofPairs (Values.pairs
      (wxopen.buildAuthParams p pre_auth_code redirectUri biz_appid auth_type)))
      (gs "agentid") = false := by
    rw [ofPairs_buildAuthParams]
    by_cases hb : biz_appid = [] <;> by_cases h : auth_type < 1 <;>
      simp only [hb, h, if_true, if_false] <;> rfl
  refine ⟨?_, ?_, ?_, ?_, ?_, ?_⟩
  · rw [decodedQuery_agent_sso]; rfl
  · rw [decodedQuery_agent_sso]; rfl
  · rw [decodedQuery_official]; rfl
  · rw [decodedQuery_agent]; rfl
  · rw [decodedQuery_open]; exact hopen
  · rw [decodedQuery_open2]; exact hopen

/-- C7: the optional parameters of the open platform.  For every `pre_auth_code`,
`redirect_uri`, `biz_appid` and `auth_type`, the parameter set of `buildAuthParams`
has `component_appid`, `pre_auth_code` and `redirect_uri` with the given values; it
has `biz_appid` (with the given value) if and only if `biz_appid` is not empty; it
has `auth_type` (with the value written in decimal) if and only if `auth_type < 1`;
so for the documented values `AuthTypeOf` = 1, `AuthTypeMp` = 2 and `AuthTypeAll` = 3
the decoded query of the URLs of `GetAuthorizationRedirectUri` and
`GetAuthorizationRedirectUri2` has no `auth_type`. -/
theorem C7_buildAuthParams_optional (o : wxopen.Open)
    (pre_auth_code redirect_uri biz_appid : GoString) (auth_type : Int) :
    Values.Get (wxopen.buildAuthParams o pre_auth_code redirect_uri biz_appid auth_type)
      (gs "component_appid") = [o.Config.ComponentAppid] ∧
    Values.Get (wxopen.buildAuthParams o pre_auth_code redirect_uri biz_appid auth_type)
      (gs "pre_auth_code") = [pre_auth_code] ∧
    Values.Get (wxopen.buildAuthParams o pre_auth_code redirect_uri biz_appid auth_type)
      (gs "redirect_uri") = [redirect_uri] ∧
    (Values.Has (wxopen.buildAuthParams o pre_auth_code redirect_uri biz_appid auth_type)
      (gs "biz_appid") = true ↔ biz_appid ≠ []) ∧
    (biz_appid ≠ [] →
      Values.Get (wxopen.buildAuthParams o pre_auth_code redirect_uri biz_appid auth_type)
        (gs "biz_appid") = [biz_appid]) ∧
    (Values.Has (wxopen.buildAuthParams o pre_auth_code redirect_uri biz_appid auth_type)
      (gs "auth_type") = true ↔ auth_type < 1) ∧
    (auth_type < 1 →
      Values.Get (wxopen.buildAuthParams o pre_auth_code redirect_uri biz_appid auth_type)
        (gs "auth_type") = [formatInt auth_type]) ∧
    (∀ t ∈ [wxopen.AuthTypeOf, wxopen.AuthTypeMp, wxopen.AuthTypeAll],
      Values.Has (decodedQuery (wxopen.GetAuthorizationRedirectUri o pre_auth_code redirect_uri
        biz_appid t)).1 (gs "auth_type") = false ∧
      Values.Has (decodedQuery (wxopen.GetAuthorizationRedirectUri2 o pre_auth_code redirect_uri
        biz_appid t)).1 (gs "auth_type") = false) := by
  have hdoc : ∀ t : Int, ¬ t < 1 →
      Values.Has (Values.ofPairs (Values.pairs
        (wxopen.buildAuthParams o pre_auth_code redirect_uri biz_appid t)))
        (gs "auth_type") = false := by
    intro t ht
    rw [ofPairs_buildAuthParams]
    by_cases hb : biz_appid = [] <;> simp only [hb, ht, if_true, if_false] <;> rfl
  refine ⟨?_, ?_, ?_, ?_, ?_, ?_, ?_, ?_⟩
  · rw [buildAuthParams_eq]; rfl
  · rw [buildAuthParams_eq]; rfl
  · rw [buildAuthParams_eq]; rfl
  · rw [buildAuthParams_eq]
    by_cases hb : biz_appid = [] <;> by_cases h : auth_type < 1 <;>
      simp only [hb, h, if_true, if_false, ne_eq, not_true_eq_false, not_false_eq_true,
        iff_true, iff_false] <;> first | rfl | exact Bool.eq_false_iff.mp rfl
  · intro hb
    rw [buildAuthParams_eq]
    by_cases h : auth_type < 1 <;> simp only [hb, h, if_true, if_false] <;> rfl
  · rw [buildAuthParams_eq]
    by_cases hb : biz_appid = [] <;> by_cases h : auth_type < 1 <;>
      simp only [hb, h, if_true, if_false, iff_true, iff_false] <;>
      first | rfl | exact Bool.eq_false_iff.mp rfl
  · intro h
    rw [buildAuthParams_eq]
    by_cases hb : biz_appid = [] <;> simp only [hb, h, if_true, if_false] <;> rfl
  · intro t ht
    have ht1 : ¬ t < 1 := by
      simp only [List.mem_cons, List.mem_singleton, List.not_mem_nil, or_false] at ht
      rcases ht with rfl | rfl | rfl <;> decide
    rw [decodedQuery_open, decodedQuery_open2]
    exact ⟨hdoc t ht1, hdoc t ht1⟩

/-- The witness of C7: a call with a `biz_appid` and with `auth_type` 0, which is below
the documented values, carries both optional parameters. -/
theorem C7_buildAuthParams_optional_witness :
    ((gs "wxbiz" : GoString) ≠ [] ∧
      Values.Get (wxopen.buildAuthParams ⟨⟨gs "wxcomponent"⟩⟩ (gs "PRE") (gs "http://a.b/cb")
        (gs "wxbiz") 0) (gs "biz_appid") = [gs "wxbiz"]) ∧
    ((0 : Int) < 1 ∧
      Values.Get (wxopen.buildAuthParams ⟨⟨gs "wxcomponent"⟩⟩ (gs "PRE") (gs "http://a.b/cb")
        (gs "wxbiz") 0) (gs "auth_type") = [gs "0"]) :=
  ⟨⟨by decide, (C7_buildAuthParams_optional ⟨⟨gs "wxcomponent"⟩⟩ (gs "PRE") (gs "http://a.b/cb")
      (gs "wxbiz") 0).2.2.2.2.1 (by decide)⟩,
   ⟨by decide, (C7_buildAuthParams_optional ⟨⟨gs "wxcomponent"⟩⟩ (gs "PRE") (gs "http://a.b/cb")
      (gs "wxbiz") 0).2.2.2.2.2.2.1 (by decide)⟩⟩

end url_parameters

section redirect_marker
open official_account
variable {σ : Type}

/-- C11 (the code departs from the claim): the URL of the official-account
`GetAuthorizeUrl` never ends with `#wechat_redirect`; for every `redirectUri`,
`scope` and `state` it holds no `#` at all.  On the input of the function's own
documentation it is the documented URL without its fragment `#wechat_redirect`. -/
theorem C11_GetAuthorizeUrl_lacks_redirect_marker (officialAccount : OfficialAccount σ)
    (redirectUri scope state : GoString) :
    (∀ b ∈ GetAuthorizeUrl officialAccount redirectUri scope state, b ≠ 0x23) ∧
    HasSuffix (GetAuthorizeUrl officialAccount redirectUri scope state)
      (gs "#wechat_redirect") = false ∧
    GetAuthorizeUrl ⟨⟨gs "wxf0e81c3bee622d60", gs "SECRET"⟩, cannedClient []⟩
        (gs "http://nba.bluewebgame.com/oauth_response.php") (gs "snsapi_userinfo")
        (gs "STATE") =
      gs "https://open.weixin.qq.com/connect/oauth2/authorize?appid=wxf0e81c3bee622d60&redirect_uri=http%3A%2F%2Fnba.bluewebgame.com%2Foauth_response.php&response_type=code&scope=snsapi_userinfo&state=STATE" := by
  have e : GetAuthorizeUrl officialAccount redirectUri scope state =
      (OauthAuthorizeServerUrl ++ apiAuthorize) ++
        (0x3F : Byte) :: Values.Encode (Values.Add (Values.Add (Values.Add (Values.Add
          (Values.Add [] (gs "appid") officialAccount.Config.Appid)
          (gs "redirect_uri") redirectUri) (gs "response_type") (gs "code"))
          (gs "scope") scope) (gs "state") state) := by
    unfold GetAuthorizeUrl
    simp only [gs_question, List.append_assoc, List.singleton_append, List.cons_append,
      List.nil_append]
  have hno : ∀ b ∈ GetAuthorizeUrl officialAccount redirectUri scope state, b ≠ 0x23 := by
    intro b hm
    rw [e] at hm
    simp only [List.mem_append, List.mem_cons] at hm
    rcases hm with hm | hm | hm
    · have hb : ∀ x ∈ OauthAuthorizeServerUrl ++ apiAuthorize, x ≠ 0x23 :=
        ne_of_all _ _ (by decide!)
      exact hb b (List.mem_append.mpr hm)
    · subst hm; decide
    · exact (Encode_safe _ b hm).1
  refine ⟨hno, ?_, by decide!⟩
  cases h : HasSuffix (GetAuthorizeUrl officialAccount redirectUri scope state)
      (gs "#wechat_redirect") with
  | false => rfl
  | true =>
    exfalso
    unfold HasSuffix at h
    simp only [Bool.and_eq_true, decide_eq_true_eq] at h
    have hm : (0x23 : Byte) ∈ List.drop
        ((GetAuthorizeUrl officialAccount redirectUri scope state).length -
          (gs "#wechat_redirect").length)
        (GetAuthorizeUrl officialAccount redirectUri scope state) := by
      rw [h.2]
      decide!
    exact hno _ (List.mem_of_mem_drop hm) rfl

end redirect_marker

section preauth_code

/-- C12 (the code departs from the claim): on the response
`{"pre_auth_code":"PREAUTHCODE","expires_in":600}`, returned by the POST without
error, `CreatePreauthCode` posts the body `{"component_appid":"wxcomponent"}` to
`/cgi-bin/component/api_create_preauthcode` and returns `("", 600, nil)`: the
code is lost, because the result record reads the member
`component_access_token`, which it returns when the response has one. -/
theorem C12_CreatePreauthCode_loses_code :
    wxopen.CreatePreauthCode
        ⟨⟨⟨gs "wxcomponent"⟩⟩,
          wxopen.loggingClient (gs "\x7b\"pre_auth_code\":\"PREAUTHCODE\",\"expires_in\":600\x7d")⟩
        [] =
      (([], 600, none),
       [(gs "/cgi-bin/component/api_create_preauthcode",
         gs "\x7b\"component_appid\":\"wxcomponent\"\x7d",
         gs "application/json;charset=utf-8", 0)]) ∧
    (wxopen.CreatePreauthCode
        ⟨⟨⟨gs "wxcomponent"⟩⟩,
          wxopen.loggingClient (gs "\x7b\"pre_auth_code\":\"PREAUTHCODE\",\"expires_in\":600\x7d")⟩
        []).1 ≠ (gs "PREAUTHCODE", 600, none) ∧
    (wxopen.CreatePreauthCode
        ⟨⟨⟨gs "wxcomponent"⟩⟩,
          wxopen.loggingClient
            (gs "\x7b\"component_access_token\":\"PREAUTHCODE\",\"expires_in\":600\x7d")⟩
        []).1 = (gs "PREAUTHCODE", 600, none) := by
  decide!

end preauth_code

section agent_user_info
open agent
variable {σ : Type}

/-- The four members of a user-info response are stored in the four fields, in any
order and whatever members without a field come with them. -/
theorem decode_userinfo_members (m u d lit : GoString) (c : Int) (hc : ParseInt lit = some c)
    (members extras : List (GoString × Json))
    (hextras : ∀ x ∈ extras, findField userInfoInfo.fields x.1 = none)
    (hperm : members.Perm
      ([(gs "errcode", Json.number lit), (gs "errmsg", Json.string m),
        (gs "UserId", Json.string u), (gs "DeviceId", Json.string d)] ++ extras)) :
    decodeStruct userInfoInfo (Json.object members) {} =
      ({ Errcode := c, Errmsg := m, UserID := u, DeviceID := d }, none) := by
  have s1 : ∀ z, objectStep userInfoInfo z (gs "errcode", Json.number lit) =
      ({ z.1 with Errcode := c }, z.2) := by
    intro z
    have e : objectStep userInfoInfo z (gs "errcode", Json.number lit) =
        match ParseInt lit with
        | some n => ({ z.1 with Errcode := n }, z.2)
        | none => (z.1, match z.2 with
            | some e => some e
            | none => some ⟨gs "number " ++ lit, gs "int", gs "UserInfo", gs "errcode"⟩) := by
      unfold objectStep
      have f : findField userInfoInfo.fields (gs "errcode", Json.number lit).1 =
          some (Field.ofInt "errcode" "int" (fun n a => { a with Errcode := n })) := rfl
      rw [f]
      simp only [Field.ofInt]
      cases ParseInt lit <;> rfl
    rw [e, hc]
  have s2 : ∀ z, objectStep userInfoInfo z (gs "errmsg", Json.string m) =
      ({ z.1 with Errmsg := m }, z.2) := fun _ => rfl
  have s3 : ∀ z, objectStep userInfoInfo z (gs "UserId", Json.string u) =
      ({ z.1 with UserID := u }, z.2) := fun _ => rfl
  have s4 : ∀ z, objectStep userInfoInfo z (gs "DeviceId", Json.string d) =
      ({ z.1 with DeviceID := d }, z.2) := fun _ => rfl
  have comm : ∀ x ∈ members, ∀ y ∈ members, ∀ z,
      objectStep userInfoInfo (objectStep userInfoInfo z x) y =
        objectStep userInfoInfo (objectStep userInfoInfo z y) x := by
    intro x hx y hy z
    have hskip : ∀ k ∈ extras, ∀ z, objectStep userInfoInfo z k = z :=
      fun k hk z => objectStep_skip _ z k (hextras k hk)
    have hx1 := hperm.subset hx
    have hy1 := hperm.subset hy
    simp only [List.mem_append, List.mem_cons, List.mem_singleton, List.not_mem_nil,
      or_false] at hx1 hy1
    rcases hx1 with hx1 | hx1 <;> rcases hy1 with hy1 | hy1
    · rcases hx1 with rfl | rfl | rfl | rfl <;>
        rcases hy1 with rfl | rfl | rfl | rfl <;>
        simp only [s1, s2, s3, s4]
    · simp only [hskip _ hy1]
    · simp only [hskip _ hx1]
    · simp only [hskip _ hx1]
  unfold decodeStruct
  simp only
  rw [hperm.foldl_eq' comm, List.foldl_append]
  simp only [List.foldl_cons, List.foldl_nil, s1, s2, s3, s4]
  rw [foldl_objectStep_skip _ _ _ hextras]

/-- C13: the enterprise `GetUserInfo` embeds provider errors in the result.  Whenever the
GET returns without error a body that is valid JSON and reads as an object whose
members are, in any order, a number `errcode` that `ParseInt` reads as `c` and the
strings `errmsg` = `m`, `UserId` = `u`, `DeviceId` = `d` (together with any members
whose keys name no field of `UserInfo`), `GetUserInfo` returns
`UserInfo{Errcode: c, Errmsg: m, UserID: u, DeviceID: d}` and a nil error, for every
`c`, zero or not.  And whenever `GetUserInfo` returns a non-nil error, either the
GET failed and the error is the one it returned, or the GET succeeded,
`json.Unmarshal` rejected the body, and the message of the error is the body. -/
theorem C13_agent_GetUserInfo_embeds_errors :
    (∀ (a : Agent σ) (code : GoString) (w w1 : σ) (body m u d lit : GoString) (c : Int)
        (members extras : List (GoString × Json)),
      a.Client.HTTPGetWithParams (gs "/cgi-bin/user/getuserinfo") [(gs "code", [code])] w =
        ((body, none), w1) →
      checkValid body = none →
      readValue body = Json.object members →
      members.Perm
        ([(gs "errcode", Json.number lit), (gs "errmsg", Json.string m),
          (gs "UserId", Json.string u), (gs "DeviceId", Json.string d)] ++ extras) →
      (∀ x ∈ extras, findField userInfoInfo.fields x.1 = none) →
      ParseInt lit = some c →
      GetUserInfo a code w =
        (({ Errcode := c, Errmsg := m, UserID := u, DeviceID := d }, none), w1)) ∧
    (∀ (a : Agent σ) (code : GoString) (w : σ) (err : GoError),
      (GetUserInfo a code w).1.2 = some err →
      (a.Client.HTTPGetWithParams (gs "/cgi-bin/user/getuserinfo")
          [(gs "code", [code])] w).1.2 = some err ∨
      ((a.Client.HTTPGetWithParams (gs "/cgi-bin/user/getuserinfo")
          [(gs "code", [code])] w).1.2 = none ∧
       (Unmarshal userInfoInfo (a.Client.HTTPGetWithParams (gs "/cgi-bin/user/getuserinfo")
          [(gs "code", [code])] w).1.1 {}).2 ≠ none ∧
       err.Error = (a.Client.HTTPGetWithParams (gs "/cgi-bin/user/getuserinfo")
          [(gs "code", [code])] w).1.1)) := by
  have hp : ∀ code : GoString, Values.Add [] (gs "code") code = [(gs "code", [code])] :=
    fun _ => rfl
  constructor
  · intro a code w w1 body m u d lit c members extras hget hvalid hread hperm hextras hc
    have hu : Unmarshal userInfoInfo body {} =
        ({ Errcode := c, Errmsg := m, UserID := u, DeviceID := d }, none) := by
      unfold Unmarshal
      rw [hvalid, hread]
      simp only [decode_userinfo_members m u d lit c hc members extras hextras hperm,
        Option.map]
    unfold GetUserInfo
    simp only [apiUserInfo, hp, hget, hu]
  · intro a code w err h
    unfold GetUserInfo at h
    simp only [apiUserInfo, hp] at h
    generalize a.Client.HTTPGetWithParams (gs "/cgi-bin/user/getuserinfo")
      [(gs "code", [code])] w = r at h ⊢
    obtain ⟨⟨body, terr⟩, x1⟩ := r
    cases terr with
    | some e =>
      left
      simpa using h
    | none =>
      right
      simp only at h ⊢
      cases hu : (Unmarshal userInfoInfo body {}).2 with
      | none => rw [hu] at h; simp at h
      | some e =>
        rw [hu] at h
        simp only [Option.some.injEq] at h
        refine ⟨trivial, by simp, ?_⟩
        rw [← h]
        rfl

/-- The witness of C13: a response with a non-zero error code is returned as a record
with a nil error, and the error returned for a body that is not JSON comes with a
successful GET, a rejected body, and the body as its message. -/
theorem C13_agent_GetUserInfo_embeds_errors_witness :
    GetUserInfo
        ⟨⟨⟨gs "corp1"⟩⟩, ⟨gs "1000002"⟩,
          cannedClient (gs "\x7b\"errcode\":40029,\"errmsg\":\"invalid code\",\"UserId\":\"USERID\",\"DeviceId\":\"DEVICEID\"\x7d")⟩
        (gs "CODE") 0 =
      (({ Errcode := 40029, Errmsg := gs "invalid code", UserID := gs "USERID",
          DeviceID := gs "DEVICEID" }, none), 1) ∧
    ((cannedClient (gs "invalid_grant")).HTTPGetWithParams (gs "/cgi-bin/user/getuserinfo")
        [(gs "code", [gs "CODE"])] 0).1.2 = none ∧
    (Unmarshal userInfoInfo (gs "invalid_grant") {}).2 ≠ none ∧
    GoError.Error (.errorf (gs "invalid_grant")) = gs "invalid_grant" :=
  ⟨(C13_agent_GetUserInfo_embeds_errors (σ := Nat)).1 _ (gs "CODE") 0 1 _ (gs "invalid code")
      (gs "USERID") (gs "DEVICEID") (gs "40029") 40029 _ [] rfl (by decide!) rfl
      (List.Perm.refl _) (by simp) (by decide!),
   ((C13_agent_GetUserInfo_embeds_errors (σ := Nat)).2
      ⟨⟨⟨gs "corp1"⟩⟩, ⟨gs "1000002"⟩, cannedClient (gs "invalid_grant")⟩ (gs "CODE") 0
      (.errorf (gs "invalid_grant")) (by decide!)).resolve_left (by decide!)⟩

end agent_user_info

end Weixin
